import Mathlib

/-!
Verification development for the pysd python-backend builder
(`pysd/py_backend/builder.py`).

The builder assembles translated model-element fragments into a python
model file: it merges partial elements, assigns caching policies, builds
stateful constructs (stocks, delays, ...), deduplicates external-data
objects, and assembles function-call expressions.

Python strings are modelled as `String`, python lists as `List`, python
dicts with fixed keys as structures, and the module-level mutable
registries (`build_names`, `import_modules`) as explicit state passed
through the functions.  Fallible python code (statements that can raise)
is modelled with `Except`/`Option`.  Helper functions that live in the
separate `utils` module (not part of the sources under verification) are
modelled from the specification and marked as such in their doc strings.
-/

namespace PysdBuilder

/-! ### Python string primitives -/

/-- Python's truthiness-based `a or b` on strings: `b` if `a` is empty. -/
def pyOr (a b : String) : String := if a = "" then b else a

/-- First non-empty string of a list (`""` if there is none); the value a
chain of python `or`-updates leaves behind. -/
def firstNonEmpty (l : List String) : String :=
  (l.find? (fun s => !(s == ""))).getD ""

theorem foldl_pyOr_eq_firstNonEmpty (a : String) (l : List String) :
    l.foldl pyOr a = firstNonEmpty (a :: l) := by
  induction l generalizing a with
  | nil =>
    by_cases h : a = ""
    · simp [firstNonEmpty, h, List.find?]
    · have hb : (a == "") = false := beq_eq_false_iff_ne.mpr h
      simp [firstNonEmpty, List.find?, hb]
  | cons b t ih =>
    by_cases h : a = ""
    · subst h
      simp only [List.foldl_cons]
      rw [ih]
      simp [firstNonEmpty, pyOr, List.find?]
    · have hb : (a == "") = false := beq_eq_false_iff_ne.mpr h
      simp only [List.foldl_cons]
      have hab : pyOr a b = a := by simp [pyOr, h]
      rw [hab, ih]
      simp [firstNonEmpty, List.find?, hb]

/-- Does `['A','D','D']` start this character list?  (The python code marks
fragments coming from external-object appends by the substring `"ADD"`.) -/
def startsADD (s : List Char) : Bool := List.isPrefixOf ['A', 'D', 'D'] s

/-- Python `"ADD" in s`: some suffix of `s` starts with `"ADD"`. -/
def hasADD : List Char → Bool
  | [] => false
  | c :: rest => startsADD (c :: rest) || hasADD rest

/-- Python `s.split("ADD")[0]`: the characters before the first occurrence
of `"ADD"` (all of `s` if there is none). -/
def splitADDbefore : List Char → List Char
  | [] => []
  | c :: rest => if startsADD (c :: rest) then [] else c :: splitADDbefore rest

theorem startsADD_cons_cons_cons (a b c : Char) (r : List Char) :
    startsADD (a :: b :: c :: r) = ('A' == a && ('D' == b && 'D' == c)) := by
  simp [startsADD, List.isPrefixOf]

/-- Splitting at `"ADD"` recovers exactly the prefix before an appended
`"ADD"`-marker, provided the prefix itself is `ADD`-free. -/
theorem splitADDbefore_append (a r : List Char) (h : hasADD a = false) :
    splitADDbefore (a ++ 'A' :: 'D' :: 'D' :: r) = a := by
  induction a with
  | nil => simp [splitADDbefore, startsADD, List.isPrefixOf]
  | cons c a ih =>
    have hc : startsADD (c :: a) = false := by
      have hh := h
      simp [hasADD] at hh
      exact hh.1
    have ha : hasADD a = false := by
      have hh := h
      simp [hasADD] at hh
      exact hh.2
    have hDA : ('D' == 'A') = false := by decide
    have hfront : startsADD (c :: (a ++ 'A' :: 'D' :: 'D' :: r)) = false := by
      match a with
      | [] =>
        rw [List.nil_append, startsADD_cons_cons_cons]
        simp [hDA]
      | [d] =>
        simp only [List.cons_append, List.nil_append]
        rw [startsADD_cons_cons_cons]
        simp [hDA]
      | d :: e :: a' =>
        simp only [List.cons_append]
        rw [startsADD_cons_cons_cons]
        rw [startsADD_cons_cons_cons] at hc
        simpa using hc
    simp [splitADDbefore, hfront, ih ha]

/-- Python `s.replace(pat, rep)` on character lists: replaces leftmost,
non-overlapping occurrences.  Structural recursion on a fuel bound (the
input length suffices: every step consumes at least one character). -/
def replaceListAux (pat rep : List Char) : Nat → List Char → List Char
  | 0, s => s
  | fuel + 1, s =>
    match s with
    | [] => []
    | c :: rest =>
      if pat.isPrefixOf s ∧ pat ≠ [] then
        rep ++ replaceListAux pat rep fuel (s.drop pat.length)
      else c :: replaceListAux pat rep fuel rest

/-- Python `s.replace(pat, rep)`. -/
def pyReplace (s pat rep : String) : String :=
  String.mk (replaceListAux pat.data rep.data s.data.length s.data)

/-- Python `s.lower()` (ASCII case folding, as used on keyword strings). -/
def pyLower (s : String) : String := String.mk (s.data.map Char.toLower)

/-! ### Decimal rendering of the numeric dedup suffix

`utils.make_add_identifier` (outside the verified sources) attaches a
numeric suffix; we render it in decimal with our own function so that its
injectivity is provable. -/

/-- Decimal digit list, by structural recursion on a fuel bound (so that
it reduces inside the kernel); `natDigits` supplies sufficient fuel. -/
def natDigitsAux : Nat → Nat → List Char
  | 0, _ => []
  | fuel + 1, n =>
    if n < 10 then [Nat.digitChar n]
    else natDigitsAux fuel (n / 10) ++ [Nat.digitChar (n % 10)]

/-- Decimal digit list of a natural number (most significant first). -/
def natDigits (n : Nat) : List Char := natDigitsAux (n + 1) n

/-- Decimal rendering of a natural number. -/
def natToDec (n : Nat) : String := String.mk (natDigits n)

/-- Numeric value of a decimal digit character. -/
def digitVal (c : Char) : Nat := c.toNat - 48

/-- Reconstructed value of a digit list. -/
def decValue (l : List Char) : Nat := l.foldl (fun a c => 10 * a + digitVal c) 0

theorem digitVal_digitChar (d : Nat) (h : d < 10) :
    digitVal (Nat.digitChar d) = d := by
  interval_cases d <;> rfl

theorem decValue_append_singleton (l : List Char) (c : Char) :
    decValue (l ++ [c]) = 10 * decValue l + digitVal c := by
  simp [decValue, List.foldl_append]

theorem decValue_natDigitsAux (fuel : Nat) :
    ∀ n : Nat, n < fuel → decValue (natDigitsAux fuel n) = n := by
  induction fuel with
  | zero => omega
  | succ fuel ih =>
    intro n hn
    by_cases h : n < 10
    · simp [natDigitsAux, h, decValue, digitVal_digitChar n h]
    · have hdiv : n / 10 < n := Nat.div_lt_self (by omega) (by omega)
      simp only [natDigitsAux, h, if_false]
      rw [decValue_append_singleton]
      rw [ih (n / 10) (by omega)]
      rw [digitVal_digitChar (n % 10) (Nat.mod_lt _ (by omega))]
      omega

theorem decValue_natDigits (n : Nat) : decValue (natDigits n) = n :=
  decValue_natDigitsAux (n + 1) n (by omega)

theorem natDigits_injective : Function.Injective natDigits := by
  intro a b h
  have := decValue_natDigits a
  rw [h, decValue_natDigits] at this
  omega

theorem natToDec_injective : Function.Injective natToDec := by
  intro a b h
  exact natDigits_injective (congrArg String.data h)

theorem natDigits_ne_nil (n : Nat) : natDigits n ≠ [] := by
  rw [natDigits, natDigitsAux]
  by_cases h : n < 10 <;> simp [h]

theorem natToDec_ne_empty (n : Nat) : natToDec n ≠ "" := by
  intro h
  exact natDigits_ne_nil n (congrArg String.data h)

/-! ### The caching-policy table of `build_element` -/

/-- The caching decorator chosen by `build_element` from the element kind
(`None` models the fatal `AttributeError("Bad value for 'kind'")`). -/
def cache_type_of_kind (kind : String) : Option String :=
  if kind = "constant" then some "@cache.run"
  else if kind ∈ ["component", "component_ext_data"] then some "@cache.step"
  else if kind = "lookup" then some ""
  else if kind ∈ ["setup", "stateful", "external", "external_add"] then some ""
  else none

/-! ### Data model

One translated element fragment, as produced by the upstream translator
and by the construct builders (`element` dictionaries in the source).
Python's `''` subscript placeholder is modelled as `[]`; the optional
`'expr'` key as an `Option`. -/

structure RawElement where
  py_name : String
  real_name : String
  doc : String
  unit : String
  lims : String
  eqn : String
  expr? : Option String
  py_expr : String
  subs : List String
  kind : String
  arguments : String
deriving DecidableEq

/-- The module-level `import_modules` dictionary: per-module booleans and
per-category sets of required runtime symbols (sets as lists, membership
being the only observable). -/
structure ImportModules where
  numpy : Bool
  xarray : Bool
  subs : Bool
  functions : List String
  external : List String
  utils : List String
deriving DecidableEq

def emptyImports : ImportModules :=
  { numpy := false, xarray := false, subs := false,
    functions := [], external := [], utils := [] }

/-- `set.add`: insert if absent. -/
def setAdd (s : String) (l : List String) : List String :=
  if s ∈ l then l else s :: l

theorem mem_setAdd_self (s : String) (l : List String) : s ∈ setAdd s l := by
  by_cases h : s ∈ l <;> simp [setAdd, h]

theorem mem_setAdd_of_mem {x : String} {l : List String} (s : String) (h : x ∈ l) :
    x ∈ setAdd s l := by
  by_cases hs : s ∈ l <;> simp [setAdd, hs, h]

/-- The module-level mutable state of `builder.py`: the external-object
dedup registry `build_names` and the `import_modules` registry. -/
structure Globals where
  buildNames : List String
  imp : ImportModules
deriving DecidableEq

def emptyGlobals : Globals := { buildNames := [], imp := emptyImports }

/-- A subscript dictionary: dimension-family names with their member
labels (read-only context, supplied externally). -/
def SubscriptDict := List (String × List String)

/-! ### Spec-modelled `utils` helpers

The functions below live in `pysd/py_backend/utils.py`, which is not part
of the sources under verification; they are modelled from the spec. -/

/-- Modelled from the spec: `utils.make_python_identifier` (identifier
sanitization) is out of scope — its inputs here are already target-safe
identifiers, so it is modelled as the identity. -/
def make_python_identifier (s : String) : String := s

/-- Modelled from the spec: `utils.make_add_identifier` derives a distinct
suffixed name (`"ADD_"` plus a monotonically incremented numeric suffix,
starting at 1), guaranteed unique against the registry, and registers it.
`freshSuffix` searches with enough fuel to be guaranteed to succeed. -/
def freshSuffix (name : String) (registry : List String) : Nat → Nat → Nat
  | 0, n => n
  | fuel + 1, n =>
    if name ++ "ADD_" ++ natToDec n ∈ registry then
      freshSuffix name registry fuel (n + 1)
    else n

/-- Modelled from the spec: `utils.make_add_identifier` (see
`freshSuffix`); returns the suffixed name and the updated registry. -/
def make_add_identifier (name : String) (registry : List String) :
    String × List String :=
  let k := freshSuffix name registry (registry.length + 1) 1
  let newName := name ++ "ADD_" ++ natToDec k
  (newName, setAdd newName registry)

/-- The coordinate information `utils.make_coord_dict` /
`utils.find_subscript_name` derive from a subscript list: rendered
dimension-name list and coordinate dictionary.  Modelled from the spec as
an abstract parameter (a pure function of the subscript list), since the
claims under verification do not depend on its output. -/
def CoordRenderer := List String → String × String

/-! ### Stateful construct builders -/

/-- `add_stock`: elements for a stock/integrator.  Returns the reference
expression and the new element records; threads `import_modules`. -/
def add_stock (identifier expression initial_condition : String)
    (subs : List String) (_subscript_dict : SubscriptDict)
    (imp : ImportModules) :
    (String × List RawElement) × ImportModules :=
  let imp := { imp with functions := setAdd "Integ" imp.functions }
  let stateful_py_expr :=
    if subs.length = 0 then
      "Integ(lambda: " ++ expression ++ ", lambda: " ++ initial_condition ++ ")"
    else
      "Integ(lambda: _d" ++ identifier ++ "_dt(), lambda: _init_" ++
        identifier ++ "())"
  let implicit : List RawElement :=
    if subs.length = 0 then []
    else
      [{ py_name := "_init_" ++ identifier,
         real_name := "Implicit",
         kind := "setup",
         py_expr := initial_condition,
         subs := subs,
         doc := "Provides initial conditions for " ++ identifier ++ " function",
         unit := "See docs for " ++ identifier,
         lims := "None",
         eqn := "None",
         expr? := none,
         arguments := "" },
       { py_name := "_d" ++ identifier ++ "_dt",
         real_name := "Implicit",
         kind := "component",
         doc := "Provides derivative for " ++ identifier ++ " function",
         subs := subs,
         unit := "See docs for " ++ identifier,
         lims := "None",
         eqn := "None",
         expr? := none,
         py_expr := expression,
         arguments := "" }]
  let stateful : RawElement :=
    { py_name := "_integ_" ++ identifier,
      real_name := "Representation of  " ++ identifier,
      doc := "Integrates Expression " ++ expression,
      py_expr := stateful_py_expr,
      unit := "None",
      lims := "None",
      eqn := "None",
      expr? := none,
      subs := [],
      kind := "stateful",
      arguments := "" }
  ((stateful.py_name ++ "()", implicit ++ [stateful]), imp)

/-- `add_n_delay`: elements for an N-order delay.  The `order` operand is
spliced verbatim into the construction expression — the source performs no
build-time validation of it. -/
def add_n_delay (identifier delay_input delay_time initial_value order : String)
    (subs : List String) (_subscript_dict : SubscriptDict)
    (imp : ImportModules) :
    (String × List RawElement) × ImportModules :=
  let imp := { imp with functions := setAdd "Delay" imp.functions }
  let stateful_py_expr :=
    if subs.length = 0 then
      "Delay(lambda: " ++ delay_input ++ ", lambda: " ++ delay_time ++
        ",lambda: " ++ initial_value ++ ", lambda: " ++ order ++ ")"
    else
      "Delay(lambda: _delinput_" ++ identifier ++ "(),lambda: _deltime_" ++
        identifier ++ "(), lambda: _init_" ++ identifier ++ "(),lambda: " ++
        order ++ ")"
  let implicit : List RawElement :=
    if subs.length = 0 then []
    else
      [{ py_name := "_init_" ++ identifier,
         real_name := "Implicit",
         kind := "setup",
         py_expr := initial_value,
         subs := subs,
         doc := "Provides initial conditions for " ++ identifier ++ " function",
         unit := "See docs for " ++ identifier,
         lims := "None",
         eqn := "None",
         expr? := none,
         arguments := "" },
       { py_name := "_deltime_" ++ identifier,
         real_name := "Implicit",
         kind := "component",
         doc := "Provides delay time for " ++ identifier ++ " function",
         subs := subs,
         unit := "See docs for " ++ identifier,
         lims := "None",
         eqn := "None",
         expr? := none,
         py_expr := delay_time,
         arguments := "" },
       { py_name := "_delinput_" ++ identifier,
         real_name := "Implicit",
         kind := "component",
         doc := "Provides input for " ++ identifier ++ " function",
         subs := subs,
         unit := "See docs for " ++ identifier,
         lims := "None",
         eqn := "None",
         expr? := none,
         py_expr := delay_input,
         arguments := "" }]
  let stateful : RawElement :=
    { py_name := "_delay_" ++ identifier,
      real_name := "Delay of " ++ delay_input,
      doc := "Delay time: " ++ delay_time ++ " \n Delay initial value " ++
        initial_value ++ " \n Delay order " ++ order,
      py_expr := stateful_py_expr,
      unit := "None",
      lims := "None",
      eqn := "None",
      expr? := none,
      subs := [],
      kind := "stateful",
      arguments := "" }
  ((stateful.py_name ++ "()", implicit ++ [stateful]), imp)

/-! ### External object builders and deduplication -/

/-- Python `keyword.strip(':')`. -/
def stripColons (s : String) : String :=
  String.mk (((s.data.dropWhile (· == ':')).reverse.dropWhile (· == ':')).reverse)

/-- The locator/coordinate argument tuple of an `ExtData` construction or
append expression (`%s, %s, %s, %s, %s, %s` filled with file, tab, time
row/col, cell, normalized keyword, coords). -/
def ext_data_arg_part (file_name tab time_row_or_col cell keyword : String)
    (mk : CoordRenderer) (subs : List String) : String :=
  file_name ++ ", " ++ tab ++ ", " ++ time_row_or_col ++ ", " ++ cell ++ ", " ++
    ("\x27" ++ pyLower (stripColons keyword) ++ "\x27") ++ ", " ++ (mk subs).2

/-- `add_ext_data`: element for `GET XLS/DIRECT DATA`.  A repeated source
identifier takes the `external_add` branch: a fresh suffixed name is
derived and the construction expression becomes an `.add(...)` payload.
Note that the returned reference expression is built from the element's
`py_name` — the suffixed name on the `external_add` branch. -/
def add_ext_data (identifier file_name tab time_row_or_col cell : String)
    (subs : List String) (_subscript_dict : SubscriptDict) (keyword : String)
    (mk : CoordRenderer) (g : Globals) : (String × List RawElement) × Globals :=
  let name := make_python_identifier ("_ext_data_" ++ identifier)
  let imp := { g.imp with external := setAdd "ExtData" g.imp.external }
  let argPart := ext_data_arg_part file_name tab time_row_or_col cell keyword mk subs
  if name ∈ g.buildNames then
    let nr := make_add_identifier name g.buildNames
    let name := nr.1
    let py_expr := ".add(" ++ argPart ++ ")"
    let external : RawElement :=
      { py_name := name,
        real_name := "External data for " ++ identifier,
        doc := "Provides data for data variable " ++ identifier,
        py_expr := py_expr,
        unit := "None", lims := "None", eqn := "None", expr? := none,
        subs := subs, kind := "external_add", arguments := "" }
    ((name ++ "(time())", [external]),
      { buildNames := nr.2, imp := imp })
  else
    let buildNames := setAdd name g.buildNames
    let py_expr := "ExtData(" ++ argPart ++ ",        _root, \x27" ++ name ++ "\x27)"
    let external : RawElement :=
      { py_name := name,
        real_name := "External data for " ++ identifier,
        doc := "Provides data for data variable " ++ identifier,
        py_expr := py_expr,
        unit := "None", lims := "None", eqn := "None", expr? := none,
        subs := subs, kind := "external", arguments := "" }
    ((name ++ "(time())", [external]),
      { buildNames := buildNames, imp := imp })

/-- `add_ext_constant`: element for `GET XLS/DIRECT CONSTANT`; same dedup
protocol, no time-axis locator, reference takes no call argument. -/
def add_ext_constant (identifier file_name tab cell : String)
    (subs : List String) (_subscript_dict : SubscriptDict)
    (mk : CoordRenderer) (g : Globals) : (String × List RawElement) × Globals :=
  let imp := { g.imp with external := setAdd "ExtConstant" g.imp.external }
  let coords := (mk subs).2
  let name := make_python_identifier ("_ext_constant_" ++ identifier)
  let argPart := file_name ++ ", " ++ tab ++ ", " ++ cell ++ ", " ++ coords
  if name ∈ g.buildNames then
    let nr := make_add_identifier name g.buildNames
    let name := nr.1
    let external : RawElement :=
      { py_name := name,
        real_name := "External constant for " ++ identifier,
        doc := "Provides data for constant data variable " ++ identifier,
        py_expr := ".add(" ++ argPart ++ ")",
        unit := "None", lims := "None", eqn := "None", expr? := none,
        subs := subs, kind := "external_add", arguments := "" }
    ((name ++ "()", [external]),
      { buildNames := setAdd name nr.2, imp := imp })
  else
    let external : RawElement :=
      { py_name := name,
        real_name := "External constant for " ++ identifier,
        doc := "Provides data for constant data variable " ++ identifier,
        py_expr := "ExtConstant(" ++ argPart ++ ",            _root, \x27" ++
          name ++ "\x27)",
        unit := "None", lims := "None", eqn := "None", expr? := none,
        subs := subs, kind := "external", arguments := "" }
    ((name ++ "()", [external]),
      { buildNames := setAdd name g.buildNames, imp := imp })

/-- `add_ext_lookup`: element for `GET XLS/DIRECT LOOKUPS`; same dedup
protocol, independent-axis locator, reference takes the scalar `x`. -/
def add_ext_lookup (identifier file_name tab x_row_or_col cell : String)
    (subs : List String) (_subscript_dict : SubscriptDict)
    (mk : CoordRenderer) (g : Globals) : (String × List RawElement) × Globals :=
  let imp := { g.imp with external := setAdd "ExtLookup" g.imp.external }
  let coords := (mk subs).2
  let name := make_python_identifier ("_ext_lookup_" ++ identifier)
  let argPart := file_name ++ ", " ++ tab ++ ", " ++ x_row_or_col ++ ", " ++
    cell ++ ", " ++ coords
  if name ∈ g.buildNames then
    let nr := make_add_identifier name g.buildNames
    let name := nr.1
    let external : RawElement :=
      { py_name := name,
        real_name := "External lookup data for " ++ identifier,
        doc := "Provides data for external lookup variable " ++ identifier,
        py_expr := ".add(" ++ argPart ++ ")",
        unit := "None", lims := "None", eqn := "None", expr? := none,
        subs := subs, kind := "external_add", arguments := "x" }
    ((name ++ "(x)", [external]),
      { buildNames := setAdd name nr.2, imp := imp })
  else
    let external : RawElement :=
      { py_name := name,
        real_name := "External lookup data for " ++ identifier,
        doc := "Provides data for external lookup variable " ++ identifier,
        py_expr := "ExtLookup(" ++ argPart ++ ",\n          _root, \x27" ++
          name ++ "\x27)",
        unit := "None", lims := "None", eqn := "None", expr? := none,
        subs := subs, kind := "external", arguments := "x" }
    ((name ++ "(x)", [external]),
      { buildNames := setAdd name g.buildNames, imp := imp })

/-! ### Element merger (`merge_partial_elements`) -/

/-- One merged element: scalar fields plus the accumulated fragment
sequences. -/
structure MergedElement where
  py_name : String
  real_name : String
  doc : String
  py_expr : List String
  unit : String
  subs : List (List String)
  lims : String
  eqn : List String
  kind : String
  arguments : String
deriving DecidableEq

/-- `'expr' if 'expr' in element else 'eqn'` (Vensim vs Xmile). -/
def eqnOf (e : RawElement) : String := e.expr?.getD e.eqn

/-- `eqn.replace(r'\ ', '')`. -/
def eqnStrip (s : String) : String := pyReplace s "\\ " ""

/-- First fragment for a name: the initial merged record. -/
def initMerged (e : RawElement) : MergedElement :=
  { py_name := e.py_name,
    real_name := e.real_name,
    doc := e.doc,
    py_expr := [e.py_expr],
    unit := e.unit,
    subs := [e.subs],
    lims := e.lims,
    eqn := [eqnStrip (eqnOf e)],
    kind := e.kind,
    arguments := e.arguments }

/-- A further fragment for an existing name: fill-if-empty scalars,
accumulate sequences, overwrite `arguments`. -/
def updateMerged (m : MergedElement) (e : RawElement) : MergedElement :=
  { m with
    doc := pyOr m.doc e.doc,
    unit := pyOr m.unit e.unit,
    lims := pyOr m.lims e.lims,
    eqn := m.eqn ++ [eqnStrip (eqnOf e)],
    py_expr := m.py_expr ++ [e.py_expr],
    subs := m.subs ++ [e.subs],
    arguments := e.arguments }

/-- One iteration of the `merge_partial_elements` loop (the `outs` dict is
modelled as an insertion-ordered association list). -/
def mergeStep (outs : List MergedElement) (e : RawElement) : List MergedElement :=
  if e.py_expr = "None" then outs
  else if outs.any (fun m => m.py_name == e.py_name) then
    outs.map (fun m => if m.py_name == e.py_name then updateMerged m e else m)
  else outs ++ [initMerged e]

/-- `merge_partial_elements`. -/
def merge_partial_elements (element_list : List RawElement) : List MergedElement :=
  element_list.foldl mergeStep []

/-! ### Function call builder (`build_function_call`) -/

/-- One parameter declaration of a structured function descriptor. -/
structure ParamDef where
  type? : Option String
  optional? : Option Bool
deriving DecidableEq

/-- A structured function descriptor. -/
structure FunctionDef where
  name : String
  original_name? : Option String
  module? : Option String
  parameters? : Option (List ParamDef)
deriving DecidableEq

/-- `function_def` is either a bare call-target name or a structured
descriptor. -/
inductive FunctionRef
  | str (s : String)
  | fdesc (d : FunctionDef)
deriving DecidableEq

/-- The exceptions `build_function_call` can raise. -/
inductive CallError
  | indexError -- user_arguments[argument_idx] out of range
  | keyError   -- missing dict key / unknown parameter type or module
  | attrError  -- import_modules['subs'].add on a boolean
deriving DecidableEq

/-- The parameter-walking loop of `build_function_call`: walks the declared
parameters, keeping `argument_idx` into `user_arguments`.  The current user
argument is fetched before dispatching on the parameter type, so a
`time`/`scope` parameter reached with the arguments exhausted (and not
optional) raises the index error. -/
def paramLoop (user_arguments : List String) :
    List ParamDef → Nat → Except CallError (List String)
  | [], _ => .ok []
  | p :: ps, argument_idx =>
    if user_arguments.length ≤ argument_idx ∧ p.optional?.getD false = true then
      .ok []
    else
      match user_arguments.get? argument_idx with
      | none => .error .indexError
      | some user_argument =>
        let t := p.type?.getD "expression"
        if t = "expression" then
          (paramLoop user_arguments ps (argument_idx + 1)).map (user_argument :: ·)
        else if t = "lambda" then
          (paramLoop user_arguments ps (argument_idx + 1)).map
            (("lambda: " ++ user_argument) :: ·)
        else if t = "time" then
          (paramLoop user_arguments ps argument_idx).map
            ("__data[\x27time\x27]" :: ·)
        else if t = "scope" then
          (paramLoop user_arguments ps argument_idx).map
            ("__data[\x27scope\x27]" :: ·)
        else .error .keyError

/-- `build_function_call`. -/
def build_function_call (function_def : FunctionRef) (user_arguments : List String)
    (imp : ImportModules) : Except CallError (String × ImportModules) :=
  match function_def with
  | .str s => .ok (s ++ "(" ++ String.intercalate "," user_arguments ++ ")", imp)
  | .fdesc d =>
    let notImpl := d.name = "not_implemented_function"
    let args? : Except CallError (List String) :=
      if notImpl then
        match d.original_name? with
        | none => .error .keyError
        | some o => .ok (("\x27" ++ o ++ "\x27") :: user_arguments)
      else .ok user_arguments
    match args? with
    | .error e => .error e
    | .ok user_arguments =>
      let imp? : Except CallError ImportModules :=
        match d.module? with
        | none => .ok imp
        | some m =>
          if m = "numpy" then .ok { imp with numpy := true }
          else if m = "xarray" then .ok { imp with xarray := true }
          else if m = "functions" then
            .ok { imp with functions := setAdd d.name imp.functions }
          else if m = "external" then
            .ok { imp with external := setAdd d.name imp.external }
          else if m = "utils" then
            .ok { imp with utils := setAdd d.name imp.utils }
          else if m = "subs" then .error .attrError
          else .error .keyError
      match imp? with
      | .error e => .error e
      | .ok imp =>
        match d.parameters? with
        | some parameters =>
          (paramLoop user_arguments parameters 0).map fun arguments =>
            (d.name ++ "(" ++ String.intercalate ", " arguments ++ ")", imp)
        | none =>
          .ok (d.name ++ "(" ++ String.intercalate "," user_arguments ++ ")",
            imp)

/-! ### Element assembler (`build_element`) -/

/-- The exceptions `build_element` can raise. -/
inductive BuildError
  | badKind    -- AttributeError("Bad value for 'kind'")
  | indexError -- element['py_expr'][0] on an empty fragment list
deriving DecidableEq

/-- Python `repr` of a list of strings (used for the `dims` list in
`'%s' % dims` and the `@subs` decorator). -/
def pyListRepr (l : List String) : String :=
  "[" ++ String.intercalate ", " (l.map fun s => "\x27" ++ s ++ "\x27") ++ "]"

/-- `'rearrange(%s, %s, %s)' % (py_expr, dims, coords)`. -/
def rearrangeExpr (mk : CoordRenderer) (py_expr : String) (subs : List String) :
    String :=
  "rearrange(" ++ py_expr ++ ", " ++ (mk subs).1 ++ ", " ++ (mk subs).2 ++ ")"

/-- The fragment-selection loop of `build_element` (executed when more than
one fragment survives the `ADD` filter): drops `ADD` fragments, rearranges
a surviving fragment when its successor flag (the appended `True` at the
end) is also set, passes it through unchanged otherwise.  The boolean in
each result records whether the fragment was rearranged (which adds the
`rearrange` import in the source). -/
def selectedFragments (mk : CoordRenderer) (exprs : List String)
    (subs : List (List String)) : List (Bool × String) :=
  let flags := (exprs.map fun e => !hasADD e.data) ++ [true]
  (exprs.zip subs).enum.filterMap fun p =>
    if flags.getD p.1 true then
      if flags.getD (p.1 + 1) true then some (true, rearrangeExpr mk p.2.1 p.2.2)
      else some (false, p.2.1)
    else none

/-- The multi-fragment combination step of `build_element`: with more than
one non-`ADD` fragment, the selected fragments are merged with `xrmerge`;
otherwise the first raw expression is taken directly (`none` models the
IndexError of `element['py_expr'][0]` on an empty list). -/
def combinePyExpr (mk : CoordRenderer) (exprs : List String)
    (subs : List (List String)) (imp : ImportModules) :
    Option String × ImportModules :=
  if 1 < exprs.countP (fun e => !hasADD e.data) then
    let sel := selectedFragments mk exprs subs
    let imp := sel.foldl
      (fun imp p =>
        if p.1 then { imp with utils := setAdd "rearrange" imp.utils } else imp)
      imp
    let imp := { imp with utils := setAdd "xrmerge" imp.utils }
    (some ("xrmerge([" ++ String.intercalate ",\n" (sel.map Prod.snd) ++ ",])"),
      imp)
  else
    (exprs.head?, imp)

/-- `build_element`, parameterised by the spec-modelled
`utils.find_subscript_name` (`fsn`) and coordinate renderer.  The final
`textwrap.dedent`/`black` formatting pass is an external collaborator
(output formatting is out of scope) and is not modelled. -/
def build_element (fsn : String → String) (mk : CoordRenderer)
    (element : MergedElement) (imp : ImportModules) :
    Except BuildError (String × ImportModules) :=
  match cache_type_of_kind element.kind with
  | none => .error .badKind
  | some cache_type =>
    match combinePyExpr mk element.py_expr element.subs imp with
    | (none, _) => .error .indexError
    | (some py_expr, imp) =>
      let contents := pyReplace ("return " ++ py_expr) "\n"
        ("\n" ++ String.mk (List.replicate 8 ' '))
      let subbed := element.subs.headD [] ≠ []
      let dims := (element.subs.headD []).map fsn
      let subs_doc := if subbed then pyListRepr dims else "None"
      let decorated := subbed ∧ element.kind ∈ ["component", "setup"]
      let subs_dec :=
        if decorated then "@subs(" ++ pyListRepr dims ++ ", _subscript_dict)"
        else ""
      let imp := if decorated then { imp with subs := true } else imp
      let doc := pyReplace (pyReplace element.doc "\\" "\n") "\n" "\n    "
      let func :=
        if element.kind ∈ ["stateful", "external"] then
          "\n    " ++ element.py_name ++ " = " ++ element.py_expr.headD "" ++
            "\n            "
        else if element.kind = "external_add" then
          -- external expressions added with the .add method: the ADD
          -- suffix is removed to target the original canonical object
          "\n    " ++ String.mk (splitADDbefore element.py_name.data) ++
            element.py_expr.headD "" ++ "\n            "
        else
          let sep := "\n" ++ String.mk (List.replicate 10 ' ')
          let eqn :=
            if element.eqn.length = 1 then element.eqn.headD ""
            else if 5 < element.eqn.length then
              sep ++ element.eqn.headD "" ++
                (sep ++ "  ." ++ (sep ++ "  ." ++ (sep ++ "  ."))) ++
                sep ++ element.eqn.getLastD ""
            else sep ++ String.intercalate sep element.eqn
          "\n    " ++ cache_type ++ "\n    " ++ subs_dec ++ "\n    def " ++
            element.py_name ++ "(" ++ element.arguments ++ "):\n        " ++
            "\"\"\"\n        Real Name: " ++ element.real_name ++
            "\n        Original Eqn: " ++ eqn ++
            "\n        Units: " ++ element.unit ++
            "\n        Limits: " ++ element.lims ++
            "\n        Type: " ++ element.kind ++
            "\n        Subs: " ++ subs_doc ++
            "\n\n        " ++ doc ++ "\n        \"\"\"\n        " ++ contents ++
            "\n        "
      .ok (func, imp)

/-! ### Model assembler (`build`) -/

/-- The per-element loop of `build` (the list comprehension over
`build_element`); an exception aborts the loop, leaving the registries in
their current (partially mutated) state. -/
def buildElems (fsn : String → String) (mk : CoordRenderer) :
    List MergedElement → ImportModules → Option (List String) × ImportModules
  | [], imp => (some [], imp)
  | e :: es, imp =>
    match build_element fsn mk e imp with
    | .error _ => (none, imp)
    | .ok (f, imp) =>
      match buildElems fsn mk es imp with
      | (none, imp) => (none, imp)
      | (some fs, imp) => (some (f :: fs), imp)

/-- `build`: merges the fragments, assembles every element, and — only
after the output text has been produced successfully — clears the
module-level registries (`build_names.clear()` and the `import_modules`
resets).  An exception propagates before the clearing code runs, so the
registries keep the state accumulated so far.  Header emission, `black`
formatting and file output are external collaborators and not modelled;
the output is the list of assembled element definitions. -/
def build (elements : List RawElement) (fsn : String → String)
    (mk : CoordRenderer) (g : Globals) : Option (List String) × Globals :=
  let merged := merge_partial_elements elements
  match buildElems fsn mk merged g.imp with
  | (none, imp) => (none, { g with imp := imp })
  | (some funcs, _) => (some funcs, emptyGlobals)

/-! ### Claim C4: the caching-policy table -/

theorem combinePyExpr_fst_isSome (mk : CoordRenderer) (exprs : List String)
    (subs : List (List String)) (imp : ImportModules) (h : exprs ≠ []) :
    ((combinePyExpr mk exprs subs imp).1).isSome := by
  unfold combinePyExpr
  split
  · simp
  · match exprs, h with
    | e :: es, _ => simp

theorem build_element_ok_iff (fsn : String → String) (mk : CoordRenderer)
    (e : MergedElement) (imp : ImportModules) (h : e.py_expr ≠ []) :
    (∃ r, build_element fsn mk e imp = .ok r) ↔
      cache_type_of_kind e.kind ≠ none := by
  cases hc : cache_type_of_kind e.kind with
  | none => simp [build_element, hc]
  | some c =>
    simp only [ne_eq, reduceCtorEq, not_false_eq_true, iff_true]
    rcases hcb : combinePyExpr mk e.py_expr e.subs imp with ⟨fst, snd⟩
    have hs := combinePyExpr_fst_isSome mk e.py_expr e.subs imp h
    rw [hcb] at hs
    cases fst with
    | none => simp at hs
    | some v =>
      simp only [build_element, hc, hcb]
      exact ⟨_, rfl⟩

/-- C4: caching-policy assignment in `build_element` is total over the
eight defined kinds and fails on all others: `constant` maps to the
once-per-run policy (`@cache.run`), `component`/`component_ext_data` to the
once-per-step policy (`@cache.step`), `lookup`, `setup`, `stateful`,
`external` and `external_add` to no caching, and every other kind raises
the fatal error — while `build_element` never raises for the eight defined
kinds (given an element with at least one expression fragment, the only
other exception source). -/
theorem claim_C4 :
    (∀ kind : String,
      (cache_type_of_kind kind = some "@cache.run" ↔ kind = "constant") ∧
      (cache_type_of_kind kind = some "@cache.step" ↔
        (kind = "component" ∨ kind = "component_ext_data")) ∧
      (cache_type_of_kind kind = some "" ↔
        (kind = "lookup" ∨ kind = "setup" ∨ kind = "stateful" ∨
          kind = "external" ∨ kind = "external_add")) ∧
      (cache_type_of_kind kind = none ↔
        ¬ kind ∈ ["constant", "component", "component_ext_data", "lookup",
          "setup", "stateful", "external", "external_add"])) ∧
    (∀ (fsn : String → String) (mk : CoordRenderer) (e : MergedElement)
      (imp : ImportModules), e.py_expr ≠ [] →
      ((∃ r, build_element fsn mk e imp = .ok r) ↔
        e.kind ∈ ["constant", "component", "component_ext_data", "lookup",
          "setup", "stateful", "external", "external_add"])) := by
  have htab : ∀ kind : String,
      (cache_type_of_kind kind = some "@cache.run" ↔ kind = "constant") ∧
      (cache_type_of_kind kind = some "@cache.step" ↔
        (kind = "component" ∨ kind = "component_ext_data")) ∧
      (cache_type_of_kind kind = some "" ↔
        (kind = "lookup" ∨ kind = "setup" ∨ kind = "stateful" ∨
          kind = "external" ∨ kind = "external_add")) ∧
      (cache_type_of_kind kind = none ↔
        ¬ kind ∈ ["constant", "component", "component_ext_data", "lookup",
          "setup", "stateful", "external", "external_add"]) := by
    intro kind
    unfold cache_type_of_kind
    split_ifs with h1 h2 h3 h4
    · subst h1; decide
    · simp only [List.mem_cons, List.not_mem_nil, or_false] at h2
      rcases h2 with rfl | rfl <;> decide
    · subst h3; decide
    · simp only [List.mem_cons, List.not_mem_nil, or_false] at h4
      rcases h4 with rfl | rfl | rfl | rfl <;> decide
    · simp_all
  refine ⟨htab, ?_⟩
  intro fsn mk e imp h
  rw [build_element_ok_iff fsn mk e imp h]
  rcases (htab e.kind) with ⟨-, -, -, h4⟩
  constructor
  · intro hne
    by_contra hmem
    exact hne (h4.mpr hmem)
  · intro hmem hnone
    exact (h4.mp hnone) hmem

theorem claim_C4_witness :
    (∃ r, build_element (fun s => s) (fun _ => ("d", "c"))
      { py_name := "x", real_name := "X", doc := "", py_expr := ["1"],
        unit := "", subs := [[]], lims := "", eqn := ["e"],
        kind := "constant", arguments := "" } emptyImports = .ok r) ↔
      "constant" ∈ ["constant", "component", "component_ext_data", "lookup",
        "setup", "stateful", "external", "external_add"] :=
  claim_C4.2 (fun s => s) (fun _ => ("d", "c")) _ emptyImports (by decide)

/-! ### Claim C2: delay construction does not validate `order` -/

/-- C2 counterexample: the claim says that a delay construction request
whose `order` operand is a non-literal string (a variable reference) fails
fatally at construction time.  In fact `add_n_delay` performs no build-time
resolution of `order` at all: with `order = "delay_order()"` it returns
normally, splicing the reference verbatim into the `Delay` construction
expression. -/
theorem claim_C2_counterexample :
    add_n_delay "x" "inflow()" "5" "init_x()" "delay_order()" [] [] emptyImports =
      (("_delay_x()",
        [{ py_name := "_delay_x",
           real_name := "Delay of inflow()",
           doc := "Delay time: 5 \n Delay initial value init_x() \n Delay order delay_order()",
           py_expr := "Delay(lambda: inflow(), lambda: 5,lambda: init_x(), lambda: delay_order())",
           unit := "None", lims := "None", eqn := "None", expr? := none,
           subs := [], kind := "stateful", arguments := "" }]),
       { emptyImports with functions := ["Delay"] }) := by
  rfl

/-- C2 amended: delay construction never fails at build time; for every
`order` string — a literal such as `"3"` or a variable reference alike —
the builder succeeds, returning the `_delay_<id>()` reference expression
and the new element records (one element without subscripts, four with),
with the `order` operand spliced verbatim (unparsed) into the `Delay`
construction expression of the stateful wrapper; integer validation is
deferred to the runtime `Delay` object. -/
theorem claim_C2_amended (identifier delay_input delay_time initial_value order : String)
    (subs : List String) (sd : SubscriptDict) (imp : ImportModules) :
    let r := add_n_delay identifier delay_input delay_time initial_value order
      subs sd imp
    r.1.1 = "_delay_" ++ identifier ++ "()" ∧
    r.2 = { imp with functions := setAdd "Delay" imp.functions } ∧
    r.1.2.length = (if subs.length = 0 then 1 else 4) ∧
    r.1.2.getLast? = some
      { py_name := "_delay_" ++ identifier,
        real_name := "Delay of " ++ delay_input,
        doc := "Delay time: " ++ delay_time ++ " \n Delay initial value " ++
          initial_value ++ " \n Delay order " ++ order,
        py_expr :=
          if subs.length = 0 then
            "Delay(lambda: " ++ delay_input ++ ", lambda: " ++ delay_time ++
              ",lambda: " ++ initial_value ++ ", lambda: " ++ order ++ ")"
          else
            "Delay(lambda: _delinput_" ++ identifier ++ "(),lambda: _deltime_" ++
              identifier ++ "(), lambda: _init_" ++ identifier ++ "(),lambda: " ++
              order ++ ")",
        unit := "None", lims := "None", eqn := "None", expr? := none,
        subs := [], kind := "stateful", arguments := "" } := by
  by_cases h : subs.length = 0 <;>
    simp [add_n_delay, h, List.getLast?_concat]

/-! ### Claim C6: stock construction -/

/-- C6: a stock construction request with an empty subscript list produces
exactly one new element — the stateful wrapper directly wrapping the
integrator built from the derivative and initial-value expressions; with a
non-empty subscript list it produces exactly three — a `setup` initializer
holding the initial value, a `component` derivative provider holding the
derivative, and the stateful wrapper — and the wrapper's construction
expression calls the two implicit elements by their derived names
(`_init_<id>`, `_d<id>_dt`); it is the same for all operand expressions,
so it never contains the raw derivative or initial-value expressions. -/
theorem claim_C6 (identifier expression initial_condition : String)
    (subs : List String) (sd : SubscriptDict) (imp : ImportModules) :
    let r := add_stock identifier expression initial_condition subs sd imp
    (subs.length = 0 →
      r.1.2 = [{ py_name := "_integ_" ++ identifier,
                 real_name := "Representation of  " ++ identifier,
                 doc := "Integrates Expression " ++ expression,
                 py_expr := "Integ(lambda: " ++ expression ++ ", lambda: " ++
                   initial_condition ++ ")",
                 unit := "None", lims := "None", eqn := "None", expr? := none,
                 subs := [], kind := "stateful", arguments := "" }]) ∧
    (subs.length ≠ 0 →
      r.1.2.length = 3 ∧
      r.1.2.map RawElement.kind = ["setup", "component", "stateful"] ∧
      r.1.2.map RawElement.py_name =
        ["_init_" ++ identifier, "_d" ++ identifier ++ "_dt",
          "_integ_" ++ identifier] ∧
      r.1.2.map RawElement.py_expr =
        [initial_condition, expression,
          "Integ(lambda: _d" ++ identifier ++ "_dt(), lambda: _init_" ++
            identifier ++ "())"] ∧
      (∀ expression2 initial_condition2 : String,
        ((add_stock identifier expression2 initial_condition2 subs sd
            imp).1.2.getLast?.map RawElement.py_expr) =
          (r.1.2.getLast?.map RawElement.py_expr))) := by
  by_cases h : subs.length = 0 <;>
    simp [add_stock, h, List.getLast?_concat]

theorem claim_C6_witness :
    (add_stock "teacup" "inflow()" "100" ["dim1"] [] emptyImports).1.2.map
        RawElement.py_expr =
      ["100", "inflow()",
        "Integ(lambda: _dteacup_dt(), lambda: _init_teacup())"] :=
  ((claim_C6 "teacup" "inflow()" "100" ["dim1"] [] emptyImports).2
    (by decide)).2.2.2.1

/-! ### Claims C7 and C10: function-call assembly -/

/-- The parameter-rendering contract as the spec states it, by structural
recursion consuming user arguments from the front: `expression` passes the
current argument through and consumes it, `lambda` wraps it as a thunk and
consumes it, `time`/`scope` emit the ambient accessor references consuming
nothing, a missing type tag means `expression`; an optional parameter
reached with the arguments exhausted stops the walk. -/
def renderParametersSpec : List ParamDef → List String → Except CallError (List String)
  | [], _ => .ok []
  | p :: ps, args =>
    if args.length = 0 ∧ p.optional?.getD false = true then .ok []
    else
      match args.head? with
      | none => .error .indexError
      | some ua =>
        let t := p.type?.getD "expression"
        if t = "expression" then
          (renderParametersSpec ps args.tail).map (ua :: ·)
        else if t = "lambda" then
          (renderParametersSpec ps args.tail).map (("lambda: " ++ ua) :: ·)
        else if t = "time" then
          (renderParametersSpec ps args).map ("__data[\x27time\x27]" :: ·)
        else if t = "scope" then
          (renderParametersSpec ps args).map ("__data[\x27scope\x27]" :: ·)
        else .error .keyError

/-- The index-based loop of the source equals the structural consume-from-
the-front rendering. -/
theorem paramLoop_eq_renderSpec (args : List String) (ps : List ParamDef)
    (aidx : Nat) :
    paramLoop args ps aidx = renderParametersSpec ps (args.drop aidx) := by
  induction ps generalizing aidx with
  | nil => rfl
  | cons p ps ih =>
    have hlen : (args.length ≤ aidx) ↔ ((args.drop aidx).length = 0) := by
      simp only [List.length_drop]
      omega
    have hget : args.get? aidx = (args.drop aidx).head? := by
      rw [List.head?_eq_getElem?, List.getElem?_drop, List.get?_eq_getElem?,
        Nat.add_zero]
    have htail : (args.drop aidx).tail = args.drop (aidx + 1) :=
      List.tail_drop args aidx
    by_cases hb : args.length ≤ aidx ∧ p.optional?.getD false = true
    · have hb2 : (args.drop aidx).length = 0 ∧ p.optional?.getD false = true :=
        ⟨hlen.mp hb.1, hb.2⟩
      simp only [paramLoop, renderParametersSpec, if_pos hb, if_pos hb2]
    · have hb2 : ¬((args.drop aidx).length = 0 ∧ p.optional?.getD false = true) :=
        fun hc => hb ⟨hlen.mpr hc.1, hc.2⟩
      simp only [paramLoop, renderParametersSpec, if_neg hb, if_neg hb2, hget,
        htail]
      cases hh : (args.drop aidx).head? with
      | none => rfl
      | some ua =>
        simp only []
        split_ifs <;> simp [ih]

/-- Helper: `build_function_call` on a plain structured descriptor (name
not the not-implemented marker, no module key) renders via the
parameter-walking loop. -/
theorem build_function_call_parameters (name : String) (ps : List ParamDef)
    (args : List String) (imp : ImportModules)
    (h : name ≠ "not_implemented_function") :
    build_function_call (.fdesc ⟨name, none, none, some ps⟩) args imp =
      (renderParametersSpec ps args).map
        (fun l => (name ++ "(" ++ String.intercalate ", " l ++ ")", imp)) := by
  simp only [build_function_call, h, if_neg, ite_false, if_false]
  rw [paramLoop_eq_renderSpec args ps 0]
  rfl

/-- C7: for every structured descriptor with a parameter list, the
assembled call renders each parameter by its declared type — `expression`
passes the current user argument through unchanged and consumes it,
`lambda` wraps it as a zero-argument thunk and consumes it, `time`/`scope`
emit references to the ambient current-time / current-scope accessors
consuming no user argument, and a missing type tag behaves as
`expression` (the contract captured by `renderParametersSpec`); in
particular a descriptor with parameters `[time, expression]` and one user
argument renders as the function applied to the time-accessor reference
followed by the unchanged argument. -/
theorem claim_C7 :
    (∀ (name : String) (ps : List ParamDef) (args : List String)
      (imp : ImportModules), name ≠ "not_implemented_function" →
      build_function_call (.fdesc ⟨name, none, none, some ps⟩) args imp =
        (renderParametersSpec ps args).map
          (fun l => (name ++ "(" ++ String.intercalate ", " l ++ ")",
            imp))) ∧
    (∀ imp : ImportModules,
      build_function_call
        (.fdesc ⟨"f", none, none,
          some [⟨some "time", none⟩, ⟨some "expression", none⟩]⟩)
        ["arg0"] imp =
      .ok ("f(__data[\x27time\x27], arg0)", imp)) := by
  refine ⟨build_function_call_parameters, fun imp => ?_⟩
  rfl

theorem claim_C7_witness :
    build_function_call (.fdesc ⟨"g", none, none, some []⟩) [] emptyImports =
      (renderParametersSpec [] []).map
        (fun l => ("g(" ++ String.intercalate ", " l ++ ")", emptyImports)) :=
  claim_C7.1 "g" [] [] emptyImports (by decide)

/-- A parameter reached with the user arguments exhausted and not marked
optional makes the walk fail with the index error (the argument is fetched
before the type dispatch). -/
theorem renderSpec_exhausted (p : ParamDef) (ps : List ParamDef)
    (h : p.optional?.getD false = false) :
    renderParametersSpec (p :: ps) [] = .error .indexError := by
  simp [renderParametersSpec, h]

theorem renderSpec_consumeAll (ps₁ : List ParamDef) (p : ParamDef)
    (ps₂ : List ParamDef) (args : List String)
    (h1 : ∀ q ∈ ps₁, q.type?.getD "expression" = "expression" ∨
      q.type?.getD "expression" = "lambda")
    (h2 : args.length = ps₁.length)
    (h4 : p.optional?.getD false = false) :
    renderParametersSpec (ps₁ ++ p :: ps₂) args = .error .indexError := by
  induction ps₁ generalizing args with
  | nil =>
    have : args = [] := List.length_eq_zero.mp h2
    subst this
    exact renderSpec_exhausted p ps₂ h4
  | cons q qs ih =>
    match args with
    | [] => simp at h2
    | a :: as =>
      have hq := h1 q (by simp)
      have hlen : (a :: as).length = 0 ∧ q.optional?.getD false = true → False := by
        rintro ⟨hc, -⟩
        simp at hc
      simp only [List.cons_append, renderParametersSpec, if_neg hlen,
        List.head?_cons, List.tail_cons, List.append_eq]
      have hrec := ih as (fun r hr => h1 r (by simp [hr])) (by simpa using h2)
      rcases hq with hq | hq
      · rw [if_pos hq, hrec]
        rfl
      · have hne : ¬(q.type?.getD "expression" = "expression") := by
          rw [hq]; decide
        rw [if_neg hne, if_pos hq, hrec]
        rfl

/-- C10: for a structured descriptor whose parameter list reaches a
non-optional `time` or `scope` parameter after all user arguments have
been consumed (a prefix of argument-consuming parameters matching the
argument count — in particular parameters exactly `[time]` with no
arguments), function-call assembly fails with the out-of-range index
error instead of emitting the accessor reference, because the current
user argument is fetched before dispatching on the parameter type. -/
theorem claim_C10 (name : String) (ps₁ : List ParamDef) (p : ParamDef)
    (ps₂ : List ParamDef) (args : List String) (imp : ImportModules)
    (hname : name ≠ "not_implemented_function")
    (h1 : ∀ q ∈ ps₁, q.type?.getD "expression" = "expression" ∨
      q.type?.getD "expression" = "lambda")
    (h2 : args.length = ps₁.length)
    (h3 : p.type? = some "time" ∨ p.type? = some "scope")
    (h4 : p.optional?.getD false = false) :
    build_function_call (.fdesc ⟨name, none, none, some (ps₁ ++ p :: ps₂)⟩)
      args imp = .error .indexError := by
  rw [build_function_call_parameters name (ps₁ ++ p :: ps₂) args imp hname]
  rw [renderSpec_consumeAll ps₁ p ps₂ args h1 h2 h4]
  rfl

theorem claim_C10_witness :
    build_function_call
      (.fdesc ⟨"f", none, none, some [⟨some "time", none⟩]⟩) [] emptyImports =
      .error .indexError :=
  claim_C10 "f" [] ⟨some "time", none⟩ [] [] emptyImports (by decide)
    (by intro q hq; simp at hq) (by decide) (Or.inl rfl) (by decide)

/-! ### Claim C8: the element merger -/

/-- The fragments that survive the `"None"`-sentinel filter. -/
def keptFragments (l : List RawElement) : List RawElement :=
  l.filter (fun e => !(e.py_expr == "None"))

/-- The surviving fragments contributing to name `n`, in input order. -/
def contribs (n : String) (l : List RawElement) : List RawElement :=
  (keptFragments l).filter (fun e => e.py_name == n)

/-- The merged record a nonempty contribution list folds to. -/
def combineContribs (e : RawElement) (es : List RawElement) : MergedElement :=
  es.foldl updateMerged (initMerged e)

/-- Association-list lookup by element name. -/
def lookupName (n : String) (l : List MergedElement) : Option MergedElement :=
  l.find? (fun m => m.py_name == n)

def namesOf (l : List MergedElement) : List String :=
  l.map MergedElement.py_name

theorem updateMerged_py_name (m : MergedElement) (e : RawElement) :
    (updateMerged m e).py_name = m.py_name := rfl

theorem lookupName_map (g : MergedElement → MergedElement)
    (hg : ∀ m, (g m).py_name = m.py_name) (l : List MergedElement) (n : String) :
    lookupName n (l.map g) = (lookupName n l).map g := by
  induction l with
  | nil => rfl
  | cons m t ih =>
    by_cases h : m.py_name = n
    · simp [lookupName, List.find?, hg, h]
    · simp only [List.map_cons, lookupName, List.find?, hg,
        beq_eq_false_iff_ne.mpr h]
      exact ih

theorem lookupName_append (n : String) (l₁ l₂ : List MergedElement) :
    lookupName n (l₁ ++ l₂) = (lookupName n l₁).or (lookupName n l₂) :=
  List.find?_append

theorem any_eq_isSome_lookupName (n : String) (l : List MergedElement) :
    l.any (fun m => m.py_name == n) = (lookupName n l).isSome := by
  induction l with
  | nil => rfl
  | cons m t ih =>
    by_cases h : m.py_name = n
    · simp [lookupName, List.find?, h]
    · simp only [List.any_cons, lookupName, List.find?,
        beq_eq_false_iff_ne.mpr h, Bool.false_or]
      exact ih

/-- Characterization of the merge loop: the merged record looked up for a
name is the fold of its surviving contributions. -/
theorem foldl_mergeStep_lookup (l : List RawElement) (acc : List MergedElement)
    (n : String) :
    lookupName n (l.foldl mergeStep acc) =
      match lookupName n acc, contribs n l with
      | none, [] => none
      | none, e :: es => some (combineContribs e es)
      | some m, es => some (es.foldl updateMerged m) := by
  induction l generalizing acc with
  | nil =>
    cases h : lookupName n acc <;> simp [contribs, keptFragments, h]
  | cons e l ih =>
    rw [List.foldl_cons, ih]
    by_cases hsent : e.py_expr = "None"
    · have hms : mergeStep acc e = acc := by simp [mergeStep, hsent]
      have hcon : contribs n (e :: l) = contribs n l := by
        simp [contribs, keptFragments, List.filter_cons, hsent]
      rw [hms, hcon]
    · have hg : ∀ m2 : MergedElement,
          ((fun m2 => if m2.py_name == e.py_name then updateMerged m2 e else m2)
            m2).py_name = m2.py_name := by
        intro m2
        by_cases hx : m2.py_name == e.py_name <;> simp [hx, updateMerged_py_name]
      by_cases hname : e.py_name = n
      · have hcon : contribs n (e :: l) = e :: contribs n l := by
          simp [contribs, keptFragments, List.filter_cons, hsent, hname]
        rw [hcon]
        cases hacc : lookupName n acc with
        | some m =>
          have hany : acc.any (fun m2 => m2.py_name == e.py_name) = true := by
            rw [hname, any_eq_isSome_lookupName, hacc]
            rfl
          have hms : mergeStep acc e = acc.map
              (fun m2 => if m2.py_name == e.py_name then updateMerged m2 e
                else m2) := by
            simp [mergeStep, hsent, hany]
          have hfind : acc.find? (fun m2 => m2.py_name == n) = some m := hacc
          have hmn : m.py_name = n := by
            have hpm := List.find?_some hfind
            simpa using hpm
          rw [hms, lookupName_map _ hg, hacc]
          have hcond : (m.py_name == e.py_name) = true := by
            rw [hmn, hname]
            exact beq_iff_eq.mpr rfl
          have hred : Option.map
              (fun m2 => if m2.py_name == e.py_name then updateMerged m2 e
                else m2) (some m) = some (updateMerged m e) := by
            simp only [Option.map_some', if_pos hcond]
          rw [hred]
          simp [List.foldl_cons]
        | none =>
          have hany : acc.any (fun m2 => m2.py_name == e.py_name) = false := by
            rw [hname, any_eq_isSome_lookupName, hacc]
            rfl
          have hms : mergeStep acc e = acc ++ [initMerged e] := by
            simp [mergeStep, hsent, hany]
          rw [hms, lookupName_append, hacc]
          have hone : lookupName n [initMerged e] = some (initMerged e) := by
            simp [lookupName, List.find?, initMerged, hname]
          rw [hone]
          rfl
      · have hcon : contribs n (e :: l) = contribs n l := by
          simp [contribs, keptFragments, List.filter_cons, hsent,
            beq_eq_false_iff_ne.mpr hname]
        rw [hcon]
        have hstep : lookupName n (mergeStep acc e) = lookupName n acc := by
          by_cases hany : acc.any (fun m2 => m2.py_name == e.py_name)
          · have hms : mergeStep acc e = acc.map
                (fun m2 => if m2.py_name == e.py_name then updateMerged m2 e
                  else m2) := by
              simp [mergeStep, hsent, hany]
            rw [hms, lookupName_map _ hg]
            cases hacc : lookupName n acc with
            | none => rfl
            | some m =>
              have hfind : acc.find? (fun m2 => m2.py_name == n) = some m := hacc
              have hmn : m.py_name = n := by
                have hpm := List.find?_some hfind
                simpa using hpm
              have hcond : ¬((m.py_name == e.py_name) = true) := by
                rw [hmn]
                exact fun hc => hname (beq_iff_eq.mp hc).symm
              have hred : Option.map
                  (fun m2 => if m2.py_name == e.py_name then updateMerged m2 e
                    else m2) (some m) = some m := by
                simp only [Option.map_some', if_neg hcond]
              rw [hred]
          · have hms : mergeStep acc e = acc ++ [initMerged e] := by
              simp [mergeStep, hsent, hany]
            rw [hms, lookupName_append]
            have hone : lookupName n [initMerged e] = none := by
              simp [lookupName, List.find?, initMerged,
                beq_eq_false_iff_ne.mpr hname]
            rw [hone, Option.or_none]
        rw [hstep]

theorem namesOf_map_preserving (g : MergedElement → MergedElement)
    (hg : ∀ m, (g m).py_name = m.py_name) (l : List MergedElement) :
    namesOf (l.map g) = namesOf l := by
  simp only [namesOf, List.map_map]
  exact List.map_congr_left (fun m _ => hg m)

theorem nodup_namesOf_foldl_mergeStep (l : List RawElement)
    (acc : List MergedElement) (h : (namesOf acc).Nodup) :
    (namesOf (l.foldl mergeStep acc)).Nodup := by
  induction l generalizing acc with
  | nil => exact h
  | cons e l ih =>
    rw [List.foldl_cons]
    apply ih
    by_cases hsent : e.py_expr = "None"
    · simpa [mergeStep, hsent] using h
    · by_cases hany : acc.any (fun m2 => m2.py_name == e.py_name)
      · have hms : mergeStep acc e = acc.map
            (fun m2 => if m2.py_name == e.py_name then updateMerged m2 e
              else m2) := by
          simp [mergeStep, hsent, hany]
        rw [hms, namesOf_map_preserving]
        · exact h
        · intro m2
          by_cases hx : m2.py_name == e.py_name <;>
            simp [hx, updateMerged_py_name]
      · have hms : mergeStep acc e = acc ++ [initMerged e] := by
          simp [mergeStep, hsent, hany]
        rw [hms]
        have hnot : e.py_name ∉ namesOf acc := by
          intro hmem
          apply hany
          rcases (by simpa [namesOf, List.mem_map] using hmem :
            ∃ m ∈ acc, m.py_name = e.py_name) with ⟨m, hm, hmn⟩
          exact List.any_eq_true.mpr ⟨m, hm, beq_iff_eq.mpr hmn⟩
        have hperm : namesOf (acc ++ [initMerged e]) =
            namesOf acc ++ [e.py_name] := by
          simp [namesOf, initMerged]
        rw [hperm]
        exact ((List.perm_append_singleton _ _).nodup_iff).mpr
          (List.nodup_cons.mpr ⟨hnot, h⟩)

theorem lookupName_of_mem_nodup (l : List MergedElement)
    (h : (namesOf l).Nodup) (m : MergedElement) (hm : m ∈ l) :
    lookupName m.py_name l = some m := by
  induction l with
  | nil => simp at hm
  | cons a t ih =>
    have hh := h
    simp only [namesOf, List.map_cons, List.nodup_cons] at hh
    rcases List.mem_cons.mp hm with rfl | hm2
    · simp [lookupName, List.find?]
    · have hna : (a.py_name == m.py_name) = false := by
        refine beq_eq_false_iff_ne.mpr ?_
        intro he
        apply hh.1
        rw [he]
        exact List.mem_map_of_mem MergedElement.py_name hm2
      simp only [lookupName, List.find?, hna]
      exact ih hh.2 hm2

theorem mem_namesOf_iff_lookup (n : String) (l : List MergedElement) :
    n ∈ namesOf l ↔ (lookupName n l).isSome = true := by
  rw [← any_eq_isSome_lookupName]
  simp only [namesOf, List.mem_map, List.any_eq_true, beq_iff_eq]

theorem combineContribs_eq (e : RawElement) (es : List RawElement) :
    combineContribs e es =
      { py_name := e.py_name,
        real_name := e.real_name,
        doc := (es.map RawElement.doc).foldl pyOr e.doc,
        py_expr := e.py_expr :: es.map RawElement.py_expr,
        unit := (es.map RawElement.unit).foldl pyOr e.unit,
        subs := e.subs :: es.map RawElement.subs,
        lims := (es.map RawElement.lims).foldl pyOr e.lims,
        eqn := eqnStrip (eqnOf e) :: es.map (fun x => eqnStrip (eqnOf x)),
        kind := e.kind,
        arguments := (es.getLastD e).arguments } := by
  induction es using List.reverseRecOn with
  | nil => rfl
  | append_singleton es x ih =>
    have hfold : combineContribs e (es ++ [x]) =
        updateMerged (combineContribs e es) x := by
      simp [combineContribs, List.foldl_append]
    rw [hfold, ih]
    simp [updateMerged, List.foldl_append, List.map_append,
      List.getLastD_concat]

/-- C8: for every input fragment list, the merger produces exactly one
merged element per unique name appearing in a non-dropped fragment
(fragments with the `"None"` expression sentinel are dropped entirely);
in each merged element the scalar fields `doc`, `unit`, `lims` hold the
first non-empty value seen, the expression-fragment, subscript-fragment
and equation-text sequences accumulate in first-seen order with equal
lengths, and `arguments` is the value of the last contributing
fragment. -/
theorem claim_C8 (l : List RawElement) :
    (namesOf (merge_partial_elements l)).Nodup ∧
    (∀ n : String, n ∈ namesOf (merge_partial_elements l) ↔
      n ∈ (keptFragments l).map RawElement.py_name) ∧
    (∀ m ∈ merge_partial_elements l,
      ∃ e es, contribs m.py_name l = e :: es ∧
        m.py_expr = (e :: es).map RawElement.py_expr ∧
        m.subs = (e :: es).map RawElement.subs ∧
        m.eqn = (e :: es).map (fun x => eqnStrip (eqnOf x)) ∧
        m.py_expr.length = m.subs.length ∧
        m.doc = firstNonEmpty ((e :: es).map RawElement.doc) ∧
        m.unit = firstNonEmpty ((e :: es).map RawElement.unit) ∧
        m.lims = firstNonEmpty ((e :: es).map RawElement.lims) ∧
        m.arguments = ((e :: es).getLastD e).arguments) := by
  have hmerge : merge_partial_elements l = l.foldl mergeStep [] := rfl
  have hnodup : (namesOf (merge_partial_elements l)).Nodup := by
    rw [hmerge]
    exact nodup_namesOf_foldl_mergeStep l [] (by simp [namesOf])
  have hlookup : ∀ n : String, lookupName n (merge_partial_elements l) =
      match contribs n l with
      | [] => none
      | e :: es => some (combineContribs e es) := by
    intro n
    rw [hmerge, foldl_mergeStep_lookup l [] n]
    cases contribs n l <;> rfl
  refine ⟨hnodup, ?_, ?_⟩
  · intro n
    rw [mem_namesOf_iff_lookup, hlookup n]
    cases hc : contribs n l with
    | nil =>
      simp only [Option.isSome_none, Bool.false_eq_true, false_iff]
      intro hmem
      rcases (by simpa [List.mem_map] using hmem :
        ∃ e ∈ keptFragments l, e.py_name = n) with ⟨e, he, hen⟩
      have : e ∈ contribs n l := by
        simp [contribs, List.mem_filter, he, hen]
      rw [hc] at this
      simp at this
    | cons e es =>
      simp only [Option.isSome_some, true_iff]
      have : e ∈ contribs n l := by simp [hc]
      have he := List.mem_filter.mp this
      exact List.mem_map.mpr ⟨e, he.1, beq_iff_eq.mp he.2⟩
  · intro m hm
    have hl := lookupName_of_mem_nodup _ hnodup m hm
    rw [hlookup m.py_name] at hl
    cases hc : contribs m.py_name l with
    | nil => rw [hc] at hl; simp at hl
    | cons e es =>
      rw [hc] at hl
      have hme : m = combineContribs e es := by
        injection hl.symm
      refine ⟨e, es, rfl, ?_, ?_, ?_, ?_, ?_, ?_, ?_, ?_⟩ <;>
        rw [hme, combineContribs_eq]
      · simp
      · simp
      · simp
      · simp
      · rw [List.map_cons]
        exact foldl_pyOr_eq_firstNonEmpty _ _
      · rw [List.map_cons]
        exact foldl_pyOr_eq_firstNonEmpty _ _
      · rw [List.map_cons]
        exact foldl_pyOr_eq_firstNonEmpty _ _
      · show (es.getLastD e).arguments = ((e :: es).getLastD e).arguments
        rw [List.getLastD_cons]

theorem claim_C8_witness :
    ∃ e es,
      contribs "x"
        [{ py_name := "x", real_name := "X", doc := "", unit := "u",
           lims := "", eqn := "e1", expr? := none, py_expr := "1",
           subs := ["a"], kind := "component", arguments := "" },
         { py_name := "x", real_name := "X", doc := "docB", unit := "",
           lims := "", eqn := "e2", expr? := none, py_expr := "2",
           subs := ["b"], kind := "component", arguments := "" }] = e :: es ∧
      ["1", "2"] = (e :: es).map RawElement.py_expr ∧
      [["a"], ["b"]] = (e :: es).map RawElement.subs ∧
      ["e1", "e2"] = (e :: es).map (fun x => eqnStrip (eqnOf x)) ∧
      (["1", "2"] : List String).length = ([["a"], ["b"]] : List (List String)).length ∧
      "docB" = firstNonEmpty ((e :: es).map RawElement.doc) ∧
      "u" = firstNonEmpty ((e :: es).map RawElement.unit) ∧
      "" = firstNonEmpty ((e :: es).map RawElement.lims) ∧
      "" = ((e :: es).getLastD e).arguments :=
  (claim_C8
    [{ py_name := "x", real_name := "X", doc := "", unit := "u",
       lims := "", eqn := "e1", expr? := none, py_expr := "1",
       subs := ["a"], kind := "component", arguments := "" },
     { py_name := "x", real_name := "X", doc := "docB", unit := "",
       lims := "", eqn := "e2", expr? := none, py_expr := "2",
       subs := ["b"], kind := "component", arguments := "" }]).2.2
    { py_name := "x", real_name := "X", doc := "docB", unit := "u",
      lims := "", eqn := ["e1", "e2"], py_expr := ["1", "2"],
      subs := [["a"], ["b"]], kind := "component", arguments := "" }
    (by
      have hm : merge_partial_elements
          [{ py_name := "x", real_name := "X", doc := "", unit := "u",
             lims := "", eqn := "e1", expr? := none, py_expr := "1",
             subs := ["a"], kind := "component", arguments := "" },
           { py_name := "x", real_name := "X", doc := "docB", unit := "",
             lims := "", eqn := "e2", expr? := none, py_expr := "2",
             subs := ["b"], kind := "component", arguments := "" }] =
          [{ py_name := "x", real_name := "X", doc := "docB", unit := "u",
             lims := "", eqn := ["e1", "e2"], py_expr := ["1", "2"],
             subs := [["a"], ["b"]], kind := "component",
             arguments := "" }] := by rfl
      rw [hm]
      exact List.mem_singleton.mpr rfl)

/-! ### Claim C3: multi-fragment combination -/

/-- A trivial coordinate renderer, for concrete evaluations. -/
def mkTrivial : CoordRenderer := fun _ => ("d", "c")

/-- The fragment-selection rule as the spec states it, by structural
recursion with successor lookahead: an append fragment (expression
invoking an append operation, marked `ADD`) is dropped; a value fragment
is rearranged into the full coordinate space when it is the last fragment
or its successor is also a value fragment, and passed through unchanged
when its successor is an append fragment. -/
def specSelectedFragments (mk : CoordRenderer) :
    List (String × List String) → List (Bool × String)
  | [] => []
  | (e, s) :: rest =>
    (if hasADD e.data then ([] : List (Bool × String))
     else
       match rest.head? with
       | none => [(true, rearrangeExpr mk e s)]
       | some (e2, _) =>
         if hasADD e2.data then [(false, e)]
         else [(true, rearrangeExpr mk e s)]) ++ specSelectedFragments mk rest

theorem selected_enumFrom (mk : CoordRenderer) (flags : List Bool) :
    ∀ (l : List (String × List String)) (k : Nat),
    (∀ j p, l.get? j = some p → flags.getD (k + j) true = !hasADD p.1.data) →
    flags.getD (k + l.length) true = true →
    ((l.enumFrom k).filterMap fun p =>
      if flags.getD p.1 true then
        if flags.getD (p.1 + 1) true then
          some (true, rearrangeExpr mk p.2.1 p.2.2)
        else some (false, p.2.1)
      else none) = specSelectedFragments mk l := by
  intro l
  induction l with
  | nil => intro k _ _; rfl
  | cons hd tl ih =>
    intro k hj hend
    obtain ⟨e, s⟩ := hd
    have h0 : flags.getD k true = !hasADD e.data := by
      have h1 := hj 0 (e, s) rfl
      rwa [Nat.add_zero] at h1
    have hj1 : ∀ j p, tl.get? j = some p →
        flags.getD (k + 1 + j) true = !hasADD p.1.data := by
      intro j p hp
      have h2 := hj (j + 1) p hp
      rwa [show k + (j + 1) = k + 1 + j by omega] at h2
    have hend1 : flags.getD (k + 1 + tl.length) true = true := by
      have hlen : k + ((e, s) :: tl).length = k + 1 + tl.length := by
        rw [List.length_cons]
        omega
      rw [← hlen]
      exact hend
    have htl := ih (k + 1) hj1 hend1
    rw [List.enumFrom_cons, List.filterMap_cons]
    cases hA : hasADD e.data with
    | true =>
      have hf : flags.getD k true = false := by rw [h0, hA]; rfl
      simp only [hf, Bool.false_eq_true, if_false, htl]
      simp [specSelectedFragments, hA]
    | false =>
      have hf : flags.getD k true = true := by rw [h0, hA]; rfl
      cases tl with
      | nil =>
        have hnext : flags.getD (k + 1) true = true := by
          have hlen : k + (((e, s) :: []) : List (String × List String)).length
              = k + 1 := by rfl
          rw [← hlen]
          exact hend
        simp only [hf, hnext, if_true, htl]
        simp [specSelectedFragments, hA]
      | cons hd2 tl2 =>
        obtain ⟨e2, s2⟩ := hd2
        have hnext : flags.getD (k + 1) true = !hasADD e2.data := by
          have h2 := hj 1 (e2, s2) rfl
          exact h2
        cases hA2 : hasADD e2.data with
        | true =>
          have hf2 : flags.getD (k + 1) true = false := by rw [hnext, hA2]; rfl
          simp only [hf, hf2, if_true, Bool.false_eq_true, if_false, htl]
          simp [specSelectedFragments, hA, hA2]
        | false =>
          have hf2 : flags.getD (k + 1) true = true := by rw [hnext, hA2]; rfl
          simp only [hf, hf2, if_true, htl]
          simp [specSelectedFragments, hA, hA2]

theorem selectedFragments_eq_spec (mk : CoordRenderer) (exprs : List String)
    (subs : List (List String)) (h : exprs.length = subs.length) :
    selectedFragments mk exprs subs =
      specSelectedFragments mk (exprs.zip subs) := by
  have hzlen : (exprs.zip subs).length = exprs.length := by
    rw [List.length_zip, h, Nat.min_self]
  have hj : ∀ j p, (exprs.zip subs).get? j = some p →
      ((exprs.map fun e => !hasADD e.data) ++ [true]).getD (0 + j) true =
        !hasADD p.1.data := by
    intro j p hp
    have hjlt : j < (exprs.zip subs).length := by
      by_contra hc
      rw [List.get?_eq_none.mpr (by omega)] at hp
      cases hp
    have hjlt2 : j < exprs.length := by rw [← hzlen]; exact hjlt
    have hfst : exprs.get? j = some p.1 := by
      rw [List.get?_eq_getElem?] at hp ⊢
      rw [List.getElem?_zip_eq_some] at hp
      obtain ⟨h1, -⟩ := hp
      rw [← h1]
    rw [Nat.zero_add]
    have hmaplen : j < (exprs.map fun e => !hasADD e.data).length := by
      simpa using hjlt2
    rw [List.get?_eq_getElem?] at hfst
    have hval : exprs[j] = p.1 := by
      have h3 := hfst
      rw [List.getElem?_eq_getElem hjlt2] at h3
      exact Option.some.inj h3
    simp [List.getD_eq_getElem?_getD, List.getElem?_append, hmaplen,
      List.getElem?_map, hfst, hjlt2, hval]
  have hend : ((exprs.map fun e => !hasADD e.data) ++ [true]).getD
      (0 + (exprs.zip subs).length) true = true := by
    rw [Nat.zero_add, hzlen]
    have hge : (exprs.map fun e => !hasADD e.data).length ≤ exprs.length := by
      simp
    simp [List.getD_eq_getElem?_getD, List.getElem?_append,
      Nat.not_lt.mpr hge]
  have := selected_enumFrom mk ((exprs.map fun e => !hasADD e.data) ++ [true])
    (exprs.zip subs) 0 hj hend
  unfold selectedFragments
  rw [← this]
  rfl

/-- C3: in the multi-fragment combination step, a fragment is classified
as an append fragment exactly by the `ADD` marker its expression carries
(an append operation on an existing external object); with more than one
value fragment, a value fragment is broadcast/reindexed (`rearrange`)
exactly when its successor is also a value fragment or it is the last
fragment, is passed through unchanged when its successor is an append
fragment, and the surviving expressions are combined with the
shape-reconciling `xrmerge`; with at most one value fragment the element
takes its first raw expression directly, with no reindex/merge. -/
theorem claim_C3 (mk : CoordRenderer) (exprs : List String)
    (subs : List (List String)) (imp : ImportModules)
    (h : exprs.length = subs.length) :
    (1 < exprs.countP (fun e => !hasADD e.data) →
      (combinePyExpr mk exprs subs imp).1 =
        some ("xrmerge([" ++ String.intercalate ",\n"
          ((specSelectedFragments mk (exprs.zip subs)).map Prod.snd) ++
          ",])")) ∧
    (exprs.countP (fun e => !hasADD e.data) ≤ 1 →
      (combinePyExpr mk exprs subs imp).1 = exprs.head?) := by
  constructor
  · intro hgt
    unfold combinePyExpr
    rw [if_pos hgt]
    simp only []
    rw [selectedFragments_eq_spec mk exprs subs h]
  · intro hle
    unfold combinePyExpr
    rw [if_neg (by omega)]

theorem claim_C3_witness :
    (1 < (["a1", "a2"] : List String).countP (fun e => !hasADD e.data) →
      (combinePyExpr mkTrivial ["a1", "a2"] [["s1"], ["s2"]] emptyImports).1 =
        some ("xrmerge([" ++ String.intercalate ",\n"
          ((specSelectedFragments mkTrivial
            (["a1", "a2"].zip [["s1"], ["s2"]])).map Prod.snd) ++ ",])")) ∧
    ((["a1", "a2"] : List String).countP (fun e => !hasADD e.data) ≤ 1 →
      (combinePyExpr mkTrivial ["a1", "a2"] [["s1"], ["s2"]]
        emptyImports).1 = (["a1", "a2"] : List String).head?) :=
  claim_C3 mkTrivial ["a1", "a2"] [["s1"], ["s2"]] emptyImports (by decide)

/-! ### Claims C1 and C5: external-object deduplication -/

theorem cand_injective (name : String) :
    Function.Injective (fun k : Nat => name ++ "ADD_" ++ natToDec k) := by
  intro a b hab
  simp only at hab
  have hdata := congrArg String.data hab
  rw [String.data_append, String.data_append, String.data_append,
    String.data_append] at hdata
  have h2 := List.append_cancel_left hdata
  exact natToDec_injective (String.ext h2)

theorem exists_fresh_suffix (name : String) (registry : List String) :
    ∃ j, j < registry.length + 1 ∧
      name ++ "ADD_" ++ natToDec (1 + j) ∉ registry := by
  by_contra hcon
  push_neg at hcon
  have hsub : ∀ a ∈ (Finset.univ : Finset (Fin (registry.length + 1))),
      (fun j : Fin (registry.length + 1) =>
        name ++ "ADD_" ++ natToDec (1 + j.val)) a ∈ registry.toFinset := by
    intro a _
    exact List.mem_toFinset.mpr (hcon a.val a.isLt)
  have hinj : Set.InjOn
      (fun j : Fin (registry.length + 1) =>
        name ++ "ADD_" ++ natToDec (1 + j.val))
      (Finset.univ : Finset (Fin (registry.length + 1))) := by
    intro a _ b _ hab
    have h2 : 1 + a.val = 1 + b.val := cand_injective name hab
    exact Fin.ext (by omega)
  have hcard := Finset.card_le_card_of_injOn _ hsub hinj
  rw [Finset.card_univ, Fintype.card_fin] at hcard
  have hle := List.toFinset_card_le registry
  omega

theorem freshSuffix_not_mem (name : String) (registry : List String) :
    ∀ fuel start : Nat,
    (∃ j, j < fuel ∧ name ++ "ADD_" ++ natToDec (start + j) ∉ registry) →
    name ++ "ADD_" ++ natToDec (freshSuffix name registry fuel start) ∉
      registry := by
  intro fuel
  induction fuel with
  | zero =>
    rintro start ⟨j, hj, -⟩
    omega
  | succ fuel ih =>
    rintro start ⟨j, hj, hfree⟩
    rw [freshSuffix]
    by_cases hmem : name ++ "ADD_" ++ natToDec start ∈ registry
    · rw [if_pos hmem]
      apply ih
      match j, hj, hfree with
      | 0, _, hfree =>
        rw [Nat.add_zero] at hfree
        exact absurd hmem hfree
      | j + 1, hj, hfree =>
        refine ⟨j, by omega, ?_⟩
        rwa [show start + (j + 1) = start + 1 + j by omega] at hfree
    · rw [if_neg hmem]
      exact hmem

theorem make_add_identifier_not_mem (name : String) (registry : List String) :
    (make_add_identifier name registry).1 ∉ registry := by
  obtain ⟨j, hj, hfree⟩ := exists_fresh_suffix name registry
  exact freshSuffix_not_mem name registry (registry.length + 1) 1 ⟨j, hj, hfree⟩

theorem make_add_identifier_shape (name : String) (registry : List String) :
    ∃ k, (make_add_identifier name registry).1 =
      name ++ "ADD_" ++ natToDec k :=
  ⟨freshSuffix name registry (registry.length + 1) 1, rfl⟩

theorem make_add_identifier_registry (name : String) (registry : List String) :
    (make_add_identifier name registry).2 =
      setAdd (make_add_identifier name registry).1 registry := rfl

theorem ADD_suffix_ne_empty (x : String) : "ADD_" ++ x ≠ "" := by
  intro hc
  have hlen := congrArg String.length hc
  rw [String.length_append] at hlen
  have h4 : ("ADD_" : String).length = 4 := rfl
  have h0 : ("" : String).length = 0 := rfl
  rw [h4, h0] at hlen
  omega

theorem append_ne_of_ne_empty (a b : String) (hb : b ≠ "") : a ++ b ≠ a := by
  intro hab
  have hlen := congrArg String.length hab
  rw [String.length_append] at hlen
  have hb0 : 0 < b.length := by
    rcases b with ⟨bd⟩
    cases bd with
    | nil => exact absurd rfl hb
    | cons c cs => simp [String.length]
  omega

theorem make_add_identifier_ne (name : String) (registry : List String) :
    (make_add_identifier name registry).1 ≠ name := by
  obtain ⟨k, hk⟩ := make_add_identifier_shape name registry
  rw [hk, String.append_assoc]
  exact append_ne_of_ne_empty name ("ADD_" ++ natToDec k)
    (ADD_suffix_ne_empty (natToDec k))

theorem add_ext_data_absent (identifier file tab trc cell kw : String)
    (subs : List String) (sd : SubscriptDict) (mk : CoordRenderer) (g : Globals)
    (h : "_ext_data_" ++ identifier ∉ g.buildNames) :
    add_ext_data identifier file tab trc cell subs sd kw mk g =
      ((("_ext_data_" ++ identifier) ++ "(time())",
        [{ py_name := "_ext_data_" ++ identifier,
           real_name := "External data for " ++ identifier,
           doc := "Provides data for data variable " ++ identifier,
           py_expr := "ExtData(" ++
             ext_data_arg_part file tab trc cell kw mk subs ++
             ",        _root, \x27" ++ ("_ext_data_" ++ identifier) ++ "\x27)",
           unit := "None", lims := "None", eqn := "None", expr? := none,
           subs := subs, kind := "external", arguments := "" }]),
       { buildNames := setAdd ("_ext_data_" ++ identifier) g.buildNames,
         imp := { g.imp with
           external := setAdd "ExtData" g.imp.external } }) := by
  simp only [add_ext_data, make_python_identifier]
  rw [if_neg h]

theorem add_ext_data_present (identifier file tab trc cell kw : String)
    (subs : List String) (sd : SubscriptDict) (mk : CoordRenderer) (g : Globals)
    (h : "_ext_data_" ++ identifier ∈ g.buildNames) :
    add_ext_data identifier file tab trc cell subs sd kw mk g =
      (((make_add_identifier ("_ext_data_" ++ identifier) g.buildNames).1 ++
          "(time())",
        [{ py_name :=
             (make_add_identifier ("_ext_data_" ++ identifier) g.buildNames).1,
           real_name := "External data for " ++ identifier,
           doc := "Provides data for data variable " ++ identifier,
           py_expr := ".add(" ++
             ext_data_arg_part file tab trc cell kw mk subs ++ ")",
           unit := "None", lims := "None", eqn := "None", expr? := none,
           subs := subs, kind := "external_add", arguments := "" }]),
       { buildNames :=
           (make_add_identifier ("_ext_data_" ++ identifier) g.buildNames).2,
         imp := { g.imp with
           external := setAdd "ExtData" g.imp.external } }) := by
  simp only [add_ext_data, make_python_identifier]
  rw [if_pos h]

/-- The `N`-fold sequence of `add_ext_data` requests with one source
identifier, collecting the emitted elements. -/
def extDataSeq (identifier file tab trc cell kw : String) (subs : List String)
    (sd : SubscriptDict) (mk : CoordRenderer) (g : Globals) :
    Nat → List RawElement × Globals
  | 0 => ([], g)
  | n + 1 =>
    let r := extDataSeq identifier file tab trc cell kw subs sd mk g n
    let r2 := add_ext_data identifier file tab trc cell subs sd kw mk r.2
    (r.1 ++ r2.1.2, r2.2)

theorem extDataSeq_invariant (identifier file tab trc cell kw : String)
    (subs : List String) (sd : SubscriptDict) (mk : CoordRenderer) :
    ∀ (n : Nat) (es : List RawElement) (g : Globals),
    extDataSeq identifier file tab trc cell kw subs sd mk emptyGlobals n =
      (es, g) →
    (∀ e ∈ es, e.py_name ∈ g.buildNames) ∧
    (es.map RawElement.py_name).Nodup ∧
    es.length = n ∧
    (1 ≤ n →
      es.head?.map RawElement.py_name = some ("_ext_data_" ++ identifier) ∧
      es.head?.map RawElement.kind = some "external" ∧
      "_ext_data_" ++ identifier ∈ g.buildNames) ∧
    (∀ e ∈ es.tail, e.kind = "external_add" ∧
      (∃ k, e.py_name = ("_ext_data_" ++ identifier) ++ "ADD_" ++ natToDec k) ∧
      e.py_expr = ".add(" ++
        ext_data_arg_part file tab trc cell kw mk subs ++ ")") := by
  intro n
  induction n with
  | zero =>
    intro es g h
    rw [extDataSeq] at h
    injection h with h1 h2
    subst h1
    subst h2
    simp
  | succ n ih =>
    intro es g h
    rcases hr : extDataSeq identifier file tab trc cell kw subs sd mk
      emptyGlobals n with ⟨es0, g0⟩
    simp only [extDataSeq, hr] at h
    obtain ⟨ih1, ih2, ih3, ih4, ih5⟩ := ih es0 g0 hr
    by_cases hn : 1 ≤ n
    · obtain ⟨ihh1, ihh2, ihh3⟩ := ih4 hn
      rw [add_ext_data_present identifier file tab trc cell kw subs sd mk g0
        ihh3] at h
      injection h with h1 h2
      subst h1
      subst h2
      set c := "_ext_data_" ++ identifier with hc
      set newName := (make_add_identifier c g0.buildNames).1 with hnew
      have hfresh : newName ∉ g0.buildNames :=
        make_add_identifier_not_mem c g0.buildNames
      have hnames : newName ∉ es0.map RawElement.py_name := by
        intro hmem
        rcases List.mem_map.mp hmem with ⟨e, he, hen⟩
        exact hfresh (hen ▸ ih1 e he)
      have hreg : (make_add_identifier c g0.buildNames).2 =
          setAdd newName g0.buildNames :=
        make_add_identifier_registry c g0.buildNames
      refine ⟨?_, ?_, ?_, ?_, ?_⟩
      · intro e he
        rcases List.mem_append.mp he with he0 | he1
        · rw [hreg]
          exact mem_setAdd_of_mem newName (ih1 e he0)
        · rw [List.mem_singleton.mp he1, hreg]
          exact mem_setAdd_self newName g0.buildNames
      · rw [List.map_append]
        refine ((List.perm_append_singleton _ _).nodup_iff).mpr ?_
        exact List.nodup_cons.mpr ⟨hnames, ih2⟩
      · rw [List.length_append, ih3]
        rfl
      · intro _
        cases es0 with
        | nil => simp at ih3; omega
        | cons a t =>
          refine ⟨?_, ?_, ?_⟩
          · simpa using ihh1
          · simpa using ihh2
          · rw [hreg]
            exact mem_setAdd_of_mem newName ihh3
      · intro e he
        cases es0 with
        | nil => simp at ih3; omega
        | cons a t =>
          rw [List.cons_append, List.tail_cons] at he
          rcases List.mem_append.mp he with he0 | he1
          · exact ih5 e (by simpa using he0)
          · rw [List.mem_singleton.mp he1]
            exact ⟨rfl, make_add_identifier_shape c g0.buildNames, rfl⟩
    · have hn0 : n = 0 := by omega
      subst hn0
      rw [extDataSeq] at hr
      injection hr with hr1 hr2
      subst hr1
      subst hr2
      have habsent : "_ext_data_" ++ identifier ∉ emptyGlobals.buildNames := by
        simp [emptyGlobals]
      rw [add_ext_data_absent identifier file tab trc cell kw subs sd mk
        emptyGlobals habsent] at h
      dsimp only [] at h
      simp only [List.nil_append] at h
      injection h with h1 h2
      subst h1
      subst h2
      have hsadd : setAdd ("_ext_data_" ++ identifier)
          emptyGlobals.buildNames = ["_ext_data_" ++ identifier] := by
        simp [setAdd, emptyGlobals, emptyImports]
      refine ⟨?_, by simp, by simp, ?_, by simp⟩
      · intro e he
        rw [List.mem_singleton.mp he]
        simp [hsadd]
      · intro _
        refine ⟨by simp, by simp, by simp [hsadd]⟩

/-- `build_element` on a (singleton-merged) `external_add` element with an
`ADD`-suffixed name assembles an append statement against the original
canonical name: the `ADD` suffix is split away. -/
theorem build_element_initMerged_external_add (fsn : String → String)
    (mk : CoordRenderer) (e : RawElement) (imp : ImportModules)
    (hkind : e.kind = "external_add") (c : String) (k : Nat)
    (hc : hasADD c.data = false)
    (hn : e.py_name = c ++ "ADD_" ++ natToDec k) :
    build_element fsn mk (initMerged e) imp =
      .ok ("\n    " ++ c ++ e.py_expr ++ "\n            ", imp) := by
  have hcache : cache_type_of_kind "external_add" = some "" := rfl
  have hcount : ¬(1 < ([e.py_expr].countP (fun x => !hasADD x.data))) := by
    by_cases hp : (!hasADD e.py_expr.data) = true <;>
      simp [List.countP_cons, List.countP_nil, hp]
  have hcomb : combinePyExpr mk [e.py_expr] [e.subs] imp =
      (some e.py_expr, imp) := by
    unfold combinePyExpr
    rw [if_neg hcount]
    rfl
  have hsplit : splitADDbefore e.py_name.data = c.data := by
    rw [hn]
    have hdata : (c ++ "ADD_" ++ natToDec k).data =
        c.data ++ 'A' :: 'D' :: 'D' :: ('_' :: natDigits k) := by
      rw [String.data_append, String.data_append, List.append_assoc]
      rfl
    rw [hdata]
    exact splitADDbefore_append c.data ('_' :: natDigits k) hc
  have hmk : String.mk c.data = c := rfl
  simp only [build_element, initMerged, hkind, hcache, hcomb, hsplit, hmk]
  simp

/-- C5: for every sequence of `N ≥ 1` external-source requests with the
same source identifier against a fresh dedup registry, the first emitted
element is the single one of kind `external` and carries the canonical
name, the other `N - 1` have kind `external_add`, all `N` emitted element
names are pairwise distinct (hence the suffixed names are distinct from
the canonical name), and each `external_add` element's finally assembled
construction statement (via `build_element`) is an append operation
(`.add(...)`) targeting the original canonical name. -/
theorem claim_C5 (identifier file tab trc cell kw : String) (subs : List String)
    (sd : SubscriptDict) (mk : CoordRenderer) (n : Nat) (h1 : 1 ≤ n)
    (h2 : hasADD ("_ext_data_" ++ identifier).data = false) :
    let r := extDataSeq identifier file tab trc cell kw subs sd mk
      emptyGlobals n
    r.1.length = n ∧
    r.1.head?.map RawElement.kind = some "external" ∧
    r.1.head?.map RawElement.py_name = some ("_ext_data_" ++ identifier) ∧
    (∀ e ∈ r.1.tail, e.kind = "external_add") ∧
    (r.1.map RawElement.py_name).Nodup ∧
    (∀ e ∈ r.1.tail, ∀ (fsn : String → String) (imp : ImportModules),
      build_element fsn mk (initMerged e) imp =
        .ok ("\n    " ++ ("_ext_data_" ++ identifier) ++
          (".add(" ++ ext_data_arg_part file tab trc cell kw mk subs ++ ")") ++
          "\n            ", imp)) := by
  obtain ⟨i1, i2, i3, i4, i5⟩ :=
    extDataSeq_invariant identifier file tab trc cell kw subs sd mk n
      (extDataSeq identifier file tab trc cell kw subs sd mk emptyGlobals n).1
      (extDataSeq identifier file tab trc cell kw subs sd mk emptyGlobals n).2
      rfl
  obtain ⟨ih1, ih2, -⟩ := i4 h1
  refine ⟨i3, ih2, ih1, ?_, i2, ?_⟩
  · intro e he
    exact (i5 e he).1
  · intro e he fsn imp
    obtain ⟨hkind, ⟨k, hk⟩, hpe⟩ := i5 e he
    rw [build_element_initMerged_external_add fsn mk e imp hkind
      ("_ext_data_" ++ identifier) k h2 hk, hpe]

theorem claim_C5_witness :
    ((extDataSeq "room" "f" "t" "r" "c" "k" [] [] mkTrivial emptyGlobals
      3).1.map RawElement.py_name).Nodup := by
  have h := claim_C5 "room" "f" "t" "r" "c" "k" [] [] mkTrivial 3 (by omega)
    (by decide)
  exact h.2.2.2.2.1

/-- C1 counterexample: the claim says the reference expression returned by
an external-source request is always a call against the canonical
(first-registered) name, identical across all requests with the same
source identifier, with the suffixed name never appearing.  In fact the
second request with the same identifier returns a call against the
suffixed `ADD_1` name, different from the first request's reference. -/
theorem claim_C1_counterexample :
    (add_ext_data "room" "f" "t" "r" "c" [] [] "interpolate" mkTrivial
      emptyGlobals).1.1 = "_ext_data_room(time())" ∧
    (add_ext_data "room" "f" "t" "r" "c" [] [] "interpolate" mkTrivial
      (add_ext_data "room" "f" "t" "r" "c" [] [] "interpolate" mkTrivial
        emptyGlobals).2).1.1 = "_ext_data_roomADD_1(time())" ∧
    ("_ext_data_roomADD_1(time())" : String) ≠ "_ext_data_room(time())" := by
  refine ⟨rfl, rfl, by decide⟩

/-- C1 amended: the reference expression returned to the caller is a call
against the `py_name` of the element emitted by that request — the
canonical name exactly when the canonical name was not yet registered
(the first request), and a distinct suffixed name otherwise — so the
returned references differ between the first and later requests with the
same source identifier.  Lookup-style sources accept the scalar call
argument `x`, data sources are invoked against the ambient current-time
accessor, and constant sources take no argument. -/
theorem claim_C1_amended (identifier file tab trc cell kw : String)
    (subs : List String) (sd : SubscriptDict) (mk : CoordRenderer)
    (g : Globals) :
    ((add_ext_data identifier file tab trc cell subs sd kw mk g).1.2.length
        = 1 ∧
      ∀ e ∈ (add_ext_data identifier file tab trc cell subs sd kw mk g).1.2,
        (add_ext_data identifier file tab trc cell subs sd kw mk g).1.1 =
          e.py_name ++ "(time())" ∧
        (e.py_name = "_ext_data_" ++ identifier ↔
          "_ext_data_" ++ identifier ∉ g.buildNames)) ∧
    ((add_ext_constant identifier file tab cell subs sd mk g).1.2.length
        = 1 ∧
      ∀ e ∈ (add_ext_constant identifier file tab cell subs sd mk g).1.2,
        (add_ext_constant identifier file tab cell subs sd mk g).1.1 =
          e.py_name ++ "()" ∧
        (e.py_name = "_ext_constant_" ++ identifier ↔
          "_ext_constant_" ++ identifier ∉ g.buildNames)) ∧
    ((add_ext_lookup identifier file tab trc cell subs sd mk g).1.2.length
        = 1 ∧
      ∀ e ∈ (add_ext_lookup identifier file tab trc cell subs sd mk g).1.2,
        (add_ext_lookup identifier file tab trc cell subs sd mk g).1.1 =
          e.py_name ++ "(x)" ∧
        (e.py_name = "_ext_lookup_" ++ identifier ↔
          "_ext_lookup_" ++ identifier ∉ g.buildNames)) := by
  refine ⟨?_, ?_, ?_⟩
  · by_cases hmem : "_ext_data_" ++ identifier ∈ g.buildNames
    · rw [add_ext_data_present identifier file tab trc cell kw subs sd mk g
        hmem]
      refine ⟨rfl, ?_⟩
      intro e he
      rw [List.mem_singleton.mp he]
      refine ⟨rfl, ?_⟩
      constructor
      · intro heq
        exact absurd heq
          (make_add_identifier_ne ("_ext_data_" ++ identifier) g.buildNames)
      · intro hnot
        exact absurd hmem hnot
    · rw [add_ext_data_absent identifier file tab trc cell kw subs sd mk g
        hmem]
      refine ⟨rfl, ?_⟩
      intro e he
      rw [List.mem_singleton.mp he]
      exact ⟨rfl, by simpa using hmem⟩
  · by_cases hmem : "_ext_constant_" ++ identifier ∈ g.buildNames
    · simp only [add_ext_constant, make_python_identifier]
      rw [if_pos hmem]
      refine ⟨rfl, ?_⟩
      intro e he
      rw [List.mem_singleton.mp he]
      refine ⟨rfl, ?_⟩
      constructor
      · intro heq
        exact absurd heq
          (make_add_identifier_ne ("_ext_constant_" ++ identifier)
            g.buildNames)
      · intro hnot
        exact absurd hmem hnot
    · simp only [add_ext_constant, make_python_identifier]
      rw [if_neg hmem]
      refine ⟨rfl, ?_⟩
      intro e he
      rw [List.mem_singleton.mp he]
      exact ⟨rfl, by simpa using hmem⟩
  · by_cases hmem : "_ext_lookup_" ++ identifier ∈ g.buildNames
    · simp only [add_ext_lookup, make_python_identifier]
      rw [if_pos hmem]
      refine ⟨rfl, ?_⟩
      intro e he
      rw [List.mem_singleton.mp he]
      refine ⟨rfl, ?_⟩
      constructor
      · intro heq
        exact absurd heq
          (make_add_identifier_ne ("_ext_lookup_" ++ identifier) g.buildNames)
      · intro hnot
        exact absurd hmem hnot
    · simp only [add_ext_lookup, make_python_identifier]
      rw [if_neg hmem]
      refine ⟨rfl, ?_⟩
      intro e he
      rw [List.mem_singleton.mp he]
      exact ⟨rfl, by simpa using hmem⟩

theorem claim_C1_witness :
    (add_ext_data "room" "f" "t" "r" "c" [] [] "interpolate" mkTrivial
        emptyGlobals).1.2.length = 1 ∧
      ∀ e ∈ (add_ext_data "room" "f" "t" "r" "c" [] [] "interpolate"
          mkTrivial emptyGlobals).1.2,
        (add_ext_data "room" "f" "t" "r" "c" [] [] "interpolate" mkTrivial
          emptyGlobals).1.1 = e.py_name ++ "(time())" ∧
        (e.py_name = "_ext_data_" ++ "room" ↔
          "_ext_data_" ++ "room" ∉ emptyGlobals.buildNames) :=
  (claim_C1_amended "room" "f" "t" "r" "c" "interpolate" [] [] mkTrivial
    emptyGlobals).1

/-! ### Claim C9: registry reset lifecycle -/

/-- C9 counterexample: the claim says the dedup and import registries are
fully reset for each build, so a second build never observes the first
build's registrations, *including when the first build terminates with an
error*.  In fact the clearing code runs only at the end of a successful
`build`: a build aborted by an element of unknown kind leaves the dedup
registry exactly as it was, so a following build observes the stale
registration `"_ext_data_room"`. -/
theorem claim_C9_counterexample :
    (build [{ py_name := "x", real_name := "X", doc := "", unit := "",
              lims := "", eqn := "e", expr? := none, py_expr := "1",
              subs := [], kind := "bogus", arguments := "" }]
      (fun s => s) mkTrivial
      { buildNames := ["_ext_data_room"], imp := emptyImports }).1 =
      none ∧
    (build [{ py_name := "x", real_name := "X", doc := "", unit := "",
              lims := "", eqn := "e", expr? := none, py_expr := "1",
              subs := [], kind := "bogus", arguments := "" }]
      (fun s => s) mkTrivial
      { buildNames := ["_ext_data_room"], imp := emptyImports
      }).2.buildNames = ["_ext_data_room"] ∧
    (["_ext_data_room"] : List String) ≠ [] := by
  refine ⟨rfl, rfl, by decide⟩

/-- C9 amended: the registries are cleared only by a build that completes
successfully — whenever `build` produces output, the post-state is the
empty registries, so the *next* build starts fresh; a build that
terminates with an error leaves the registrations (dedup names and the
accumulated module flags) in place, observable by the next build. -/
theorem claim_C9_amended (elements : List RawElement) (fsn : String → String)
    (mk : CoordRenderer) (g : Globals) (out : List String)
    (h : (build elements fsn mk g).1 = some out) :
    (build elements fsn mk g).2 = emptyGlobals := by
  simp only [build] at h ⊢
  rcases hb : buildElems fsn mk (merge_partial_elements elements) g.imp
    with ⟨r, imp⟩
  rw [hb] at h
  cases r with
  | none =>
    have h2 : (none : Option (List String)) = some out := h
    exact Option.noConfusion h2
  | some funcs => rfl

theorem claim_C9_witness :
    (build [{ py_name := "_integ_x", real_name := "R", doc := "",
              unit := "None", lims := "None", eqn := "None", expr? := none,
              py_expr := "Integ(a, b)", subs := [], kind := "stateful",
              arguments := "" }]
      (fun s => s) mkTrivial
      { buildNames := ["n1"], imp := emptyImports }).2 = emptyGlobals :=
  claim_C9_amended _ _ _ _ ["\n    _integ_x = Integ(a, b)\n            "]
    (by rfl)

end PysdBuilder
